import Mathlib

/-!
Verification of the chart-intent inference engine of the recharts-app
repository (src/unnamed/part_001 `ChartGenerator` and
src/src/components/echartsConfig.ts).

The development shallowly embeds the JavaScript/TypeScript source:
JS values are modelled by `JsVal`, JS numbers by `JsNum` (an exact
rational together with NaN and the two infinities; IEEE rounding is
irrelevant to every computation the theorems touch, which stay within
exactly representable values), and host built-ins that the source calls
are modelled as follows: `Date.parse` validity is a parameter
(`dp : String → Bool`, true iff `Date.parse` would not return NaN),
`Math.random`-based palette generation is a parameter (the generated
palette list), `parseFloat` and `JSON.stringify` are embedded directly.
Rendering-only styling constants of the produced ECharts options
(tooltip/axis/grid/animation settings, per-item colors) are not part of
the embedding; all data-bearing parts of the options are.
-/

namespace ChartSpec

/-! ## Basic character and string utilities (JS semantics) -/

/-- ASCII lower-casing of a character, as `String.prototype.toLowerCase`
acts on the ASCII range (the only range the source's inputs exercise). -/
def lowerChar (c : Char) : Char :=
  if 'A' ≤ c ∧ c ≤ 'Z' then Char.ofNat (c.toNat + 32) else c

/-- `toLowerCase` on a character list. -/
def lowerL (s : List Char) : List Char := s.map lowerChar

/-- JS whitespace (the characters relevant to `\s` and `trim` here). -/
def isWsChar (c : Char) : Bool :=
  c = ' ' ∨ c = '\t' ∨ c = '\n' ∨ c = '\r' ∨ c = '\x0b' ∨ c = '\x0c'

/-- JS `\w` word characters: `[A-Za-z0-9_]`. -/
def isWordChar (c : Char) : Bool :=
  ('a' ≤ c ∧ c ≤ 'z') ∨ ('A' ≤ c ∧ c ≤ 'Z') ∨ ('0' ≤ c ∧ c ≤ '9') ∨ c = '_'

/-- `String.prototype.trim` on a character list. -/
def trimL (s : List Char) : List Char :=
  ((s.dropWhile isWsChar).reverse.dropWhile isWsChar).reverse

/-- `String.prototype.trim`. -/
def trimS (s : String) : String := ⟨trimL s.toList⟩

/-- `toLowerCase` on strings. -/
def lowerS (s : String) : String := ⟨lowerL s.toList⟩

/-- Is `pre` a prefix of `s` (character-exact)? -/
def startsWithL : List Char → List Char → Bool
  | [], _ => true
  | _ :: _, [] => false
  | p :: ps, c :: cs => p = c && startsWithL ps cs

/-- JS `String.prototype.includes`: is `needle` a contiguous substring? -/
def hasSubL (needle : List Char) : List Char → Bool
  | [] => startsWithL needle []
  | c :: cs => startsWithL needle (c :: cs) || hasSubL needle cs

/-- `a.includes(b)` on strings. -/
def jsIncludes (s needle : String) : Bool := hasSubL needle.toList s.toList

/-- Case-insensitive substring test (models `/lit/i.test(s)` for a literal
alternative `lit`). -/
def hasSubCI (s needle : String) : Bool :=
  hasSubL (lowerL needle.toList) (lowerL s.toList)

/-- Map over a list together with the element index (JS `Array.map`'s
second callback argument). -/
def mapIdxL (f : Nat → α → β) : List α → List β :=
  go 0
where
  go : Nat → List α → List β
    | _, [] => []
    | i, x :: xs => f i x :: go (i + 1) xs

/-- Split on separator characters, keeping empty segments, as JS
`String.prototype.split` with a single-character-class regex does. -/
def splitKeepEmpty (isSep : Char → Bool) : List Char → List (List Char)
  | [] => [[]]
  | c :: cs =>
    let rest := splitKeepEmpty isSep cs
    if isSep c then [] :: rest
    else
      match rest with
      | [] => [[c]]
      | seg :: segs => (c :: seg) :: segs

/-- JS `s.split(/\s+/)` for strings without trailing whitespace (every use
in the source is on a trimmed string): maximal whitespace-free runs, with
a leading empty segment when the string starts with whitespace. -/
def splitWsRuns : List Char → List (List Char)
  | [] => [[]]
  | c :: cs =>
    let rest := splitWsRuns cs
    if isWsChar c then
      match rest with
      | [] :: _ => rest
      | _ => [] :: rest
    else
      match rest with
      | [] => [[c]]
      | seg :: segs => (c :: seg) :: segs

/-- Remove the characters `_` and `-` (JS `replace(/[_-]/g, "")`). -/
def stripUnderDash (s : List Char) : List Char :=
  s.filter (fun c => ¬ (c = '_' ∨ c = '-'))

/-- Replace the characters `_` and `-` by a space
(JS `replace(/[_-]/g, " ")`). -/
def underDashToSpace (s : List Char) : List Char :=
  s.map (fun c => if c = '_' ∨ c = '-' then ' ' else c)

/-- JS `Array.from(new Set(xs))`: deduplicate keeping first occurrences. -/
def dedupFirst (l : List String) : List String :=
  go [] l
where
  go : List String → List String → List String
    | _, [] => []
    | seen, x :: xs => if x ∈ seen then go seen xs else x :: go (x :: seen) xs

/-- Join a list of strings with a separator (JS `Array.prototype.join`). -/
def joinSep (sep : String) : List String → String
  | [] => ""
  | [x] => x
  | x :: y :: rest => x ++ sep ++ joinSep sep (y :: rest)

/-- Decimal digit character. -/
def digitChar : Nat → Char
  | 0 => '0' | 1 => '1' | 2 => '2' | 3 => '3' | 4 => '4'
  | 5 => '5' | 6 => '6' | 7 => '7' | 8 => '8' | _ => '9'

/-- Decimal digits of a natural number (fuel-structured so that the kernel
can evaluate it; the fuel `n + 1` always suffices). -/
def natDigitsF : Nat → Nat → List Char
  | 0, _ => []
  | fuel + 1, n =>
    if n < 10 then [digitChar n]
    else natDigitsF fuel (n / 10) ++ [digitChar (n % 10)]

/-- Decimal representation of a natural number. -/
def natRepr (n : Nat) : String := ⟨natDigitsF (n + 1) n⟩

/-- Decimal representation of an integer (JS template-literal form). -/
def intRepr (i : Int) : String :=
  if i < 0 then "-" ++ natRepr i.natAbs else natRepr i.natAbs

/-! ## JS numbers -/

/-- A JavaScript number: an exact finite value, NaN, or an infinity. -/
inductive JsNum where
  | fin (q : ℚ)
  | nan
  | posInf
  | negInf
  deriving DecidableEq, Repr

namespace JsNum

/-- Is this NaN? -/
def isNan : JsNum → Bool
  | nan => true
  | _ => false

/-- JS truthiness of a number (`0` and `NaN` are falsy). -/
def truthy : JsNum → Bool
  | fin q => q ≠ 0
  | nan => false
  | _ => true

/-- Numeric order on non-NaN values; NaN is placed last so that the
relation is total (the source never compares NaN on the paths the
theorems inspect — a NaN comparator makes JS `sort` order unspecified). -/
def leB : JsNum → JsNum → Bool
  | negInf, _ => true
  | _, nan => true
  | nan, _ => false
  | _, negInf => false
  | fin a, fin b => a ≤ b
  | fin _, posInf => true
  | posInf, fin _ => false
  | posInf, posInf => true

/-- JS `Math.min` on two numbers. -/
def jsMin (a b : JsNum) : JsNum :=
  if a.isNan ∨ b.isNan then nan else if leB a b then a else b

/-- JS `Math.max` on two numbers. -/
def jsMax (a b : JsNum) : JsNum :=
  if a.isNan ∨ b.isNan then nan else if leB a b then b else a

/-- JS addition. -/
def add : JsNum → JsNum → JsNum
  | nan, _ => nan
  | _, nan => nan
  | posInf, negInf => nan
  | negInf, posInf => nan
  | posInf, _ => posInf
  | _, posInf => posInf
  | negInf, _ => negInf
  | _, negInf => negInf
  | fin a, fin b => fin (a + b)

/-- JS multiplication. -/
def mul : JsNum → JsNum → JsNum
  | nan, _ => nan
  | _, nan => nan
  | fin a, fin b => fin (a * b)
  | posInf, posInf => posInf
  | negInf, negInf => posInf
  | posInf, negInf => negInf
  | negInf, posInf => negInf
  | posInf, fin b => if b = 0 then nan else if 0 < b then posInf else negInf
  | fin a, posInf => if a = 0 then nan else if 0 < a then posInf else negInf
  | negInf, fin b => if b = 0 then nan else if 0 < b then negInf else posInf
  | fin a, negInf => if a = 0 then nan else if 0 < a then negInf else posInf

/-- JS subtraction. -/
def sub (a b : JsNum) : JsNum := add a (mul (fin (-1)) b)

/-- JS division (signed zeros are not modelled; a zero divisor takes its
sign from the dividend). -/
def div : JsNum → JsNum → JsNum
  | nan, _ => nan
  | _, nan => nan
  | posInf, posInf => nan
  | posInf, negInf => nan
  | negInf, posInf => nan
  | negInf, negInf => nan
  | posInf, fin b => if 0 ≤ b then posInf else negInf
  | negInf, fin b => if 0 ≤ b then negInf else posInf
  | fin _, posInf => fin 0
  | fin _, negInf => fin 0
  | fin a, fin b =>
    if b = 0 then
      if a = 0 then nan else if 0 < a then posInf else negInf
    else fin (a / b)

end JsNum

/-! ## Number formatting and parsing -/

/-- Fractional decimal digits of `r / d` (`0 < r < d`): the least
`k ≤ fuel` with `r * 10 ^ k` divisible by `d`, together with the digit
value. Every finite JS number has such an expansion (denominators are
`2^a * 5^b` after scaling), so the fuel of 64 used below never runs out
on values a JS program can hold. -/
def fracDigitsF : Nat → Nat → Nat → Nat → Option (Nat × Nat)
  | 0, _, _, _ => none
  | fuel + 1, r, d, k =>
    let r' := r * 10
    if r' % d = 0 then some (k + 1, r' / d)
    else fracDigitsF fuel (r' % d) d (k + 1) |>.map (fun p => (p.1, (r' / d) * 10 ^ (p.1 - (k + 1)) + p.2))

/-- Left-pad a digit string with zeros to width `k`. -/
def padZeros (k : Nat) (s : List Char) : List Char :=
  List.replicate (k - s.length) '0' ++ s

/-- Decimal representation of a nonnegative rational, in the style JS
uses for the (non-exponential) numbers that occur here. -/
def posRatRepr (n d : Nat) : String :=
  let ip := n / d
  let r := n % d
  if r = 0 then natRepr ip
  else
    match fracDigitsF 64 r d 0 with
    | some (k, digits) => natRepr ip ++ "." ++ ⟨padZeros k (natDigitsF (digits + 1) digits)⟩
    | none => natRepr ip ++ ".?"

/-- JS number-to-string for the numbers this program produces
(exponential notation for extreme magnitudes is not modelled; no theorem
depends on it). -/
def numRepr : JsNum → String
  | .nan => "NaN"
  | .posInf => "Infinity"
  | .negInf => "-Infinity"
  | .fin q =>
    if q < 0 then "-" ++ posRatRepr q.num.natAbs q.den
    else posRatRepr q.num.natAbs q.den

/-- Is this a decimal digit? -/
def isDigitChar (c : Char) : Bool := '0' ≤ c ∧ c ≤ '9'

/-- Digit value. -/
def digitVal (c : Char) : Nat := c.toNat - '0'.toNat

/-- Parse a maximal digit run into (value, count, rest). -/
def takeDigits : List Char → Nat → Nat → Nat × Nat × List Char
  | [], acc, cnt => (acc, cnt, [])
  | c :: cs, acc, cnt =>
    if isDigitChar c then takeDigits cs (acc * 10 + digitVal c) (cnt + 1)
    else (acc, cnt, c :: cs)

/-- JS `parseFloat`: skip leading whitespace, optional sign, then the
longest prefix of the form `digits[.digits][e[+-]digits]` or `Infinity`;
NaN when no digits are found. -/
def parseFloatJs (s : String) : JsNum :=
  let l := s.toList.dropWhile isWsChar
  let (neg, l) :=
    match l with
    | '-' :: rest => (true, rest)
    | '+' :: rest => (false, rest)
    | _ => (false, l)
  if startsWithL "Infinity".toList l then
    if neg then .negInf else .posInf
  else
    let (ip, ipCnt, l₁) := takeDigits l 0 0
    let (fp, fpCnt, l₂) :=
      match l₁ with
      | '.' :: rest => takeDigits rest 0 0
      | _ => (0, 0, l₁)
    if ipCnt = 0 ∧ fpCnt = 0 then .nan
    else
      let mantissa : ℚ := (ip : ℚ) + (fp : ℚ) / (10 ^ fpCnt : ℚ)
      let expPart : Int :=
        match l₂ with
        | 'e' :: rest | 'E' :: rest =>
          let (sgn, rest') :=
            match rest with
            | '-' :: r => ((-1 : Int), r)
            | '+' :: r => ((1 : Int), r)
            | _ => ((1 : Int), rest)
          let (ev, ecnt, _) := takeDigits rest' 0 0
          if ecnt = 0 then 0 else sgn * ev
        | _ => 0
      let v := mantissa * (10 : ℚ) ^ expPart
      .fin (if neg then -v else v)

/-! ## JS values

`JsVal` is a mutual inductive family (rather than a nested inductive over
`List`) so that all recursive functions over it are structural and
therefore evaluate inside the kernel. -/

mutual
inductive JsVal where
  | jsUndefVal
  | jsNull
  | bool (b : Bool)
  | num (x : JsNum)
  | str (s : String)
  | date (iso : String)
  | arr (xs : JsValList)
  | obj (fs : JsFields)

inductive JsValList where
  | nil
  | cons (v : JsVal) (rest : JsValList)

inductive JsFields where
  | nil
  | cons (k : String) (v : JsVal) (rest : JsFields)
end

/-- Build a `JsValList` from a list. -/
def JsValList.ofList : List JsVal → JsValList
  | [] => .nil
  | v :: vs => .cons v (ofList vs)

/-- Build `JsFields` from an association list. -/
def JsFields.ofList : List (String × JsVal) → JsFields
  | [] => .nil
  | (k, v) :: rest => .cons k v (ofList rest)

/-- Convenience: a flat JS object literal. -/
def jsObj (l : List (String × JsVal)) : JsVal := .obj (.ofList l)

/-- Convenience: a JS array literal. -/
def jsArr (l : List JsVal) : JsVal := .arr (.ofList l)

namespace JsVal

/-- JS truthiness. -/
def truthy : JsVal → Bool
  | jsUndefVal => false
  | jsNull => false
  | bool b => b
  | num x => x.truthy
  | str s => s ≠ ""
  | _ => true

/-- Is the value an array whose first element makes `typeof` return
`"object"` and is not `null` (the `flattenObject` recursion test)? -/
def isPrimLeaf : JsVal → Bool
  | arr _ => false
  | obj _ => false
  | _ => true

end JsVal

mutual
/-- JS `String(v)` for the values this program stringifies. -/
def jsToString : JsVal → String
  | .jsUndefVal => "undefined"
  | .jsNull => "null"
  | .bool b => if b then "true" else "false"
  | .num x => numRepr x
  | .str s => s
  | .date iso => iso
  | .arr xs => jsArrToString xs
  | .obj _ => "[object Object]"

/-- JS `Array.prototype.toString`: elements joined by commas, with `null`
and `undefined` rendered empty. -/
def jsArrToString : JsValList → String
  | .nil => ""
  | .cons v .nil =>
    match v with
    | .jsUndefVal => ""
    | .jsNull => ""
    | _ => jsToString v
  | .cons v rest =>
    (match v with
     | .jsUndefVal => ""
     | .jsNull => ""
     | _ => jsToString v) ++ "," ++ jsArrToString rest
end

/-- `String(v || "")` — the pervasive name-stringification idiom. -/
def strOrEmpty (v : JsVal) : String :=
  if v.truthy then jsToString v else ""

/-! ## JSON.stringify -/

/-- JSON string escaping (the short escapes plus `\u00XX` for other
control characters). -/
def jsonEscapeChar (c : Char) : List Char :=
  if c = '"' then ['\\', '"']
  else if c = '\\' then ['\\', '\\']
  else if c = '\n' then ['\\', 'n']
  else if c = '\r' then ['\\', 'r']
  else if c = '\t' then ['\\', 't']
  else if c = '\x08' then ['\\', 'b']
  else if c = '\x0c' then ['\\', 'f']
  else if c.toNat < 32 then
    ['\\', 'u', '0', '0', digitChar (c.toNat / 16), digitChar (c.toNat % 16)]
  else [c]

/-- Quote a string as JSON. -/
def jsonQuote (s : String) : String :=
  ⟨'"' :: (s.toList.flatMap jsonEscapeChar) ++ ['"']⟩

mutual
/-- `JSON.stringify` of a value appearing inside an array or object
(where `undefined` serializes as `null` / is dropped by the caller);
non-finite numbers serialize as `null`. -/
def jsonStr : JsVal → String
  | .jsUndefVal => "null"
  | .jsNull => "null"
  | .bool b => if b then "true" else "false"
  | .num (.fin q) => numRepr (.fin q)
  | .num _ => "null"
  | .str s => jsonQuote s
  | .date iso => jsonQuote iso
  | .arr xs => "[" ++ jsonStrArr xs ++ "]"
  | .obj fs => "\x7b" ++ jsonStrObj fs ++ "\x7d"

/-- Serialize array elements. -/
def jsonStrArr : JsValList → String
  | .nil => ""
  | .cons v .nil => jsonStr v
  | .cons v rest => jsonStr v ++ "," ++ jsonStrArr rest

/-- Serialize object fields, dropping `undefined` members. -/
def jsonStrObj : JsFields → String
  | .nil => ""
  | .cons _ .jsUndefVal rest => jsonStrObj rest
  | .cons k v rest =>
    match jsonStrObj rest with
    | "" => jsonQuote k ++ ":" ++ jsonStr v
    | tail => jsonQuote k ++ ":" ++ jsonStr v ++ "," ++ tail
end

/-! ## The Flattener (`flattenObject`, src/unnamed/part_001 lines 14-53) -/

/-- JS property assignment `result[newKey] = value` on a plain object:
an existing key is updated in place, a new key is appended. -/
def setKey (m : List (String × JsVal)) (k : String) (v : JsVal) : List (String × JsVal) :=
  if m.any (fun p => p.1 = k) then
    m.map (fun p => if p.1 = k then (k, v) else p)
  else m ++ [(k, v)]

/-- JS property read `m[k]` (`undefined` when absent). -/
def getVal (m : List (String × JsVal)) (k : String) : JsVal :=
  match m.find? (fun p => p.1 = k) with
  | some p => p.2
  | none => .jsUndefVal

/-- `prefix ? prefix + "." + key : key`. -/
def joinKey (pre k : String) : String :=
  if pre = "" then k else pre ++ "." ++ k

mutual
/-- The `for key in objRecord` loop body of `flattenObject`. -/
def flattenFields : JsFields → String → List (String × JsVal) → List (String × JsVal)
  | .nil, _, result => result
  | .cons k value rest, pre, result =>
    flattenFields rest pre (flattenEntry value (joinKey pre k) result)

/-- Dispatch on one property value, mirroring the if/else ladder of
`flattenObject`: null/undefined pass through; an array is kept as-is when
its first element is a primitive and expanded index-wise when its first
element is object-typed; a plain object recurses with a dotted prefix;
dates and primitives are leaves. -/
def flattenEntry : JsVal → String → List (String × JsVal) → List (String × JsVal)
  | .jsUndefVal, newKey, result => setKey result newKey .jsUndefVal
  | .jsNull, newKey, result => setKey result newKey .jsNull
  | .arr xs, newKey, result =>
    (match xs with
     | .nil => result
     | .cons first _ =>
       match first with
       | .num _ | .str _ | .bool _ => setKey result newKey (.arr xs)
       | .obj _ | .arr _ | .date _ => flattenArrItems xs 0 newKey result
       | .jsUndefVal | .jsNull => result)
  | .obj fs, newKey, result => flattenFields fs newKey result
  | v, newKey, result => setKey result newKey v

/-- The `value.forEach((item, idx) => ...)` expansion of an array of
objects: non-array object items recurse under `parent[idx]` (a `Date`
item recurses into a no-op, as it has no enumerable properties). -/
def flattenArrItems : JsValList → Nat → String → List (String × JsVal) → List (String × JsVal)
  | .nil, _, _, result => result
  | .cons item rest, idx, newKey, result =>
    let result' :=
      match item with
      | .obj fs => flattenFields fs (newKey ++ "[" ++ natRepr idx ++ "]") result
      | _ => result
    flattenArrItems rest (idx + 1) newKey result'
end

/-- `flattenObject(obj, prefix, result)`: non-objects (including arrays)
pass through unchanged per the leading guard. -/
def flattenObject (v : JsVal) (pre : String) (result : List (String × JsVal)) :
    List (String × JsVal) :=
  match v with
  | .obj fs => flattenFields fs pre result
  | _ => result

/-! ## The Field Classifier (`dataKeys` useMemo, src/unnamed/part_001 lines 93-160) -/

/-- The name-key semantic pattern of the classifier (line 130); tested as
a case-insensitive substring alternation. -/
def classifierNameWords : List String :=
  ["name", "label", "category", "title", "id", "key", "agent", "month", "day",
   "date", "time", "year", "period", "quarter", "week", "season", "location",
   "region", "country", "city", "state", "product", "item", "type", "class",
   "group", "team", "department", "category", "tag"]

/-- The value-key semantic pattern (lines 141 and 317; both occurrences
are identical). -/
def valueWords : List String :=
  ["value", "amount", "count", "total", "sum", "quantity", "number", "price",
   "cost", "revenue", "sales", "score", "rating", "interaction", "kpi",
   "satisfaction", "metric", "measure", "data", "result", "outcome",
   "performance", "efficiency", "rate", "percentage", "percent", "ratio",
   "index", "level", "size", "volume", "weight", "length", "height", "width",
   "depth", "area", "distance", "speed", "time", "duration", "frequency"]

/-- `/w1|w2|.../i.test(k)` for a literal alternation: some alternative is
a case-insensitive substring of `k`. -/
def semTest (words : List String) (k : String) : Bool :=
  words.any (fun w => hasSubCI k w)

/-- JS `a || b` where `a` is a possibly-undefined string: empty and
undefined both fall through. -/
def orStr (a : Option String) (b : String) : String :=
  match a with
  | some s => if s = "" then b else s
  | none => b

/-- The classifier's result record. -/
structure DataKeysResult where
  allKeys : List String
  numericKeys : List String
  stringKeys : List String
  dateKeys : List String
  nameKey : String
  valueKey : String
  flattenedData : List (List (String × JsVal))

/-- Numeric-key test of the classifier:
`typeof value === "number" && !isNaN(value)`. -/
def isNumericVal : JsVal → Bool
  | .num x => !x.isNan
  | _ => false

/-- String-key test of the classifier. -/
def isStringVal : JsVal → Bool
  | .str _ => true
  | _ => false

/-- The `dataKeys` useMemo: classification of the first record's
flattened shape, plus per-record flattening of the whole data set.
`dp` models `Date.parse` validity (true iff not NaN). -/
def dataKeys (dp : String → Bool) (data : List JsVal) : DataKeysResult :=
  match data with
  | [] => ⟨[], [], [], [], "", "", []⟩
  | firstItem :: _ =>
    let flattened := flattenObject firstItem "" []
    let allKeys := flattened.map Prod.fst
    let numericKeys := allKeys.filter (fun k => isNumericVal (getVal flattened k))
    let stringKeys := allKeys.filter (fun k => isStringVal (getVal flattened k))
    let dateKeys := allKeys.filter (fun k =>
      match getVal flattened k with
      | .str s => dp s
      | _ => false)
    let nameKey :=
      orStr (stringKeys.find? (fun k => semTest classifierNameWords k))
        (orStr dateKeys.head? (orStr stringKeys.head? (orStr allKeys.head? "")))
    let valueKey :=
      orStr (numericKeys.find? (fun k => semTest valueWords k))
        (orStr numericKeys.head? "")
    ⟨allKeys, numericKeys, stringKeys, dateKeys, nameKey, valueKey,
      data.map (fun item => flattenObject item "" [])⟩

/-! ## Whole-word, whitespace-tolerant keyword matching

The source builds `new RegExp("\\b" + keyword.replace(/\s+/g, "\\s+") + "\\b", "i")`
and tests it. Every keyword starts and ends with a word character, so the
regex is equivalent to: at some position whose predecessor is absent or a
non-word character, the keyword's space-separated tokens occur literally
(case-insensitively) separated by nonempty whitespace runs, followed by
the end or a non-word character. Because each token starts with a word
character, the greedy consumption of whitespace used here coincides with
the regex's `\s+`. -/

/-- Case-insensitive literal match at the head; returns the rest. -/
def matchLitCI : List Char → List Char → Option (List Char)
  | [], s => some s
  | _ :: _, [] => none
  | t :: ts, c :: cs => if lowerChar c = lowerChar t then matchLitCI ts cs else none

/-- Require at least one whitespace character, then consume the whole run. -/
def skipWs1 : List Char → Option (List Char)
  | [] => none
  | c :: cs => if isWsChar c then some (cs.dropWhile isWsChar) else none

/-- Match a sequence of literal tokens separated by `\s+`. -/
def matchTokensCI : List (List Char) → List Char → Option (List Char)
  | [], s => some s
  | [t], s => matchLitCI t s
  | t :: ts, s =>
    match matchLitCI t s with
    | none => none
    | some r =>
      match skipWs1 r with
      | none => none
      | some r' => matchTokensCI ts r'

/-- Do the tokens match at the head, with a trailing word boundary? -/
def kwHere (tokens : List (List Char)) (s : List Char) : Bool :=
  match matchTokensCI tokens s with
  | none => false
  | some [] => true
  | some (c :: _) => !isWordChar c

/-- Scan all positions with a leading word boundary. -/
def kwScan (tokens : List (List Char)) : Bool → List Char → Bool
  | _, [] => false
  | prevIsWord, c :: rest =>
    (!prevIsWord && kwHere tokens (c :: rest)) || kwScan tokens (isWordChar c) rest

/-- The keyword's space-separated tokens. -/
def kwTokens (kw : String) : List (List Char) :=
  (splitWsRuns kw.toList).filter (fun t => t ≠ [])

/-- `new RegExp("\\b" + kw.replace(/\s+/g, "\\s+") + "\\b", "i").test(s)`. -/
def kwMatches (kw : String) (s : String) : Bool :=
  kwScan (kwTokens kw) false s.toList

/-! ## Trendline detection (src/unnamed/part_001 lines 198-224 and
echartsConfig.ts lines 2153-2160) -/

/-- `(trendline|trend\s*line)` at the head, with a trailing word
boundary; the first alternative is tried first, and on its failure the
second consumes any whitespace run after `trend`. -/
def trendTailHere (s : List Char) : Bool :=
  (match matchLitCI "trendline".toList s with
   | some [] => true
   | some (c :: _) => !isWordChar c
   | none => false) ||
  (match matchLitCI "trend".toList s with
   | none => false
   | some r =>
     match matchLitCI "line".toList (r.dropWhile isWsChar) with
     | some [] => true
     | some (c :: _) => !isWordChar c
     | none => false)

/-- `/\b(dual|multiple)\s*(trendline|trend\s*line)\b/.test(s)`. -/
def dualMultiRegex (s : List Char) : Bool :=
  go false s
where
  here (s : List Char) : Bool :=
    (match matchLitCI "dual".toList s with
     | some r => trendTailHere (r.dropWhile isWsChar)
     | none => false) ||
    (match matchLitCI "multiple".toList s with
     | some r => trendTailHere (r.dropWhile isWsChar)
     | none => false)
  go : Bool → List Char → Bool
    | _, [] => false
    | prevIsWord, c :: rest =>
      (!prevIsWord && here (c :: rest)) || go (isWordChar c) rest

/-- `/\b(trendline|trend\s*line|regression)\b/.test(s)`. -/
def singleTrendRegex (s : List Char) : Bool :=
  go false s
where
  here (s : List Char) : Bool :=
    trendTailHere s ||
    (match matchLitCI "regression".toList s with
     | some [] => true
     | some (c :: _) => !isWordChar c
     | none => false)
  go : Bool → List Char → Bool
    | _, [] => false
    | prevIsWord, c :: rest =>
      (!prevIsWord && here (c :: rest)) || go (isWordChar c) rest

/-- The dual/multiple-trendline condition (first `if` of the trendline
check; also the pre-check of `detectEChartsType`). `pl` is the lowercased,
trimmed prompt. -/
def multiTrendCond (pl : String) : Bool :=
  jsIncludes pl "dual trendline" || jsIncludes pl "multiple trendline" ||
    dualMultiRegex pl.toList

/-- The single-trendline condition (the `else if`). -/
def singleTrendCond (pl : String) : Bool :=
  jsIncludes pl "trendline" || jsIncludes pl "trend line" ||
    jsIncludes pl "regression" || jsIncludes pl "linear trend" ||
    singleTrendRegex pl.toList

/-- `hasTrendline` as computed by the assembly effect. -/
def hasTrendlineOf (pl : String) : Bool :=
  multiTrendCond pl || singleTrendCond pl

/-! ## The chart-type registry's keywords
(`ECHARTS_TYPE_CONFIGS`, echartsConfig.ts; entries in object insertion
order, keywords in list order) -/

/-- Registry key and keyword list of every chart type. -/
def registryKeywords : List (String × List String) :=
  [("bar", ["bar", "bars", "column", "columns"]),
   ("stackedbar", ["stacked bar", "stacked column", "stacked bars"]),
   ("groupedbar", ["grouped bar", "grouped column", "grouped bars"]),
   ("line", ["line", "lines", "graph", "graphs", "trend"]),
   ("area", ["area", "areas", "filled"]),
   ("stackedarea", ["stacked area", "stacked areas"]),
   ("pie", ["pie", "pies", "circle", "percentage", "proportion"]),
   ("donut", ["donut", "doughnut"]),
   ("scatter", ["scatter", "scatter plot", "scatterplot"]),
   ("bubble", ["bubble", "bubbles"]),
   ("radar", ["radar", "spider", "web", "polar"]),
   ("heatmap", ["heatmap", "heat map"]),
   ("treemap", ["treemap", "tree map", "hierarchy"]),
   ("funnel", ["funnel", "funnels", "conversion"]),
   ("sankey", ["sankey", "flow", "alluvial"]),
   ("sunburst", ["sunburst", "sun burst", "hierarchical pie"]),
   ("radialbar", ["radial", "radial bar", "gauge"]),
   ("polararea", ["polar area", "polar area chart"]),
   ("histogram", ["histogram", "histograms"]),
   ("boxplot", ["box plot", "boxplot", "box and whisker"]),
   ("lollipop", ["lollipop", "lollipops"]),
   ("density", ["density plot", "density"]),
   ("candlestick", ["candlestick", "candle", "ohlc", "financial", "stock", "trading"]),
   ("parallel", ["parallel", "parallel coordinates", "multivariate", "correlation"]),
   ("graph", ["graph", "network", "node", "link", "relationship", "connection", "graph diagram"]),
   ("themeriver", ["theme river", "stream", "flow", "timeline", "event flow"]),
   ("effectscatter", ["effect scatter", "ripple", "animated scatter", "pulsing scatter"]),
   ("lines", ["lines", "route", "path", "trajectory", "movement", "flow lines"]),
   ("tree", ["tree", "hierarchical tree", "organization", "org chart", "tree diagram"]),
   ("calendar", ["calendar", "calendar heatmap", "heat calendar", "activity calendar", "daily"])]

/-- The registry's keys. -/
def registryKeys : List String := registryKeywords.map Prod.fst

/-- `Math.max(...keywords.map(k => k.length))`. -/
def maxKwLen (kws : List String) : Nat :=
  (kws.map String.length).foldr max 0

/-- The comparator-sorted entry list: `Array.prototype.sort` with
`(a, b) => bMax - aMax` is a stable descending sort on the longest
keyword length, which `List.insertionSort` with `≥` on that key
reproduces (equal keys keep insertion order). -/
def sortedConfigs : List (String × List String) :=
  registryKeywords.insertionSort
    (fun a b => maxKwLen b.2 ≤ maxKwLen a.2)

/-- The nested `for` loops of `detectEChartsType`: first entry with a
matching keyword wins. -/
def detectFromConfigs : List (String × List String) → String → Option String
  | [], _ => none
  | (t, kws) :: rest, pl =>
    if kws.any (fun kw => kwMatches kw pl) then some t else detectFromConfigs rest pl

/-- `detectEChartsType` (echartsConfig.ts lines 2150-2179): the
dual/multiple-trendline pre-check returns "line"; otherwise the sorted
registry is searched and "bar" is the default. -/
def detectEChartsType (prompt : String) : String :=
  let pl := trimS (lowerS prompt)
  if multiTrendCond pl then "line"
  else
    match detectFromConfigs sortedConfigs pl with
    | some t => t
    | none => "bar"

/-! ## Explicit-pair and field-mention detection
(src/unnamed/part_001 lines 226-294) -/

/-- Maximal `\w+` run at the head. -/
def takeWordRun : List Char → List Char × List Char
  | [] => ([], [])
  | c :: cs =>
    if isWordChar c then
      let (run, rest) := takeWordRun cs
      (c :: run, rest)
    else ([], c :: cs)

/-- The connective alternation `(?:vs|versus|and|&)` of the pair pattern,
tried in the regex's order, each requiring trailing `\s+`. -/
def vsConnective (s : List Char) : Option (List Char) :=
  match matchLitCI "vs".toList s with
  | some r =>
    (match skipWs1 r with
     | some r' => some r'
     | none => tryOthers s)
  | none => tryOthers s
where
  tryOthers (s : List Char) : Option (List Char) :=
    match matchLitCI "versus".toList s with
    | some r =>
      (match skipWs1 r with
       | some r' => some r'
       | none => tryAnd s)
    | none => tryAnd s
  tryAnd (s : List Char) : Option (List Char) :=
    match matchLitCI "and".toList s with
    | some r =>
      (match skipWs1 r with
       | some r' => some r'
       | none => tryAmp s)
    | none => tryAmp s
  tryAmp (s : List Char) : Option (List Char) :=
    match matchLitCI "&".toList s with
    | some r => skipWs1 r
    | none => none

/-- Attempt `/(\w+)\s+(?:vs|versus|and|&)\s+(\w+)/i` at the head. -/
def vsHere (s : List Char) : Option (String × String) :=
  let (w1, r) := takeWordRun s
  if w1 = [] then none
  else
    match skipWs1 r with
    | none => none
    | some r' =>
      match vsConnective r' with
      | none => none
      | some r'' =>
        let (w2, _) := takeWordRun r''
        if w2 = [] then none else some (⟨w1⟩, ⟨w2⟩)

/-- `prompt.match(vsPattern)`: the leftmost match's two capture groups
(the scan restarts one character later after a failed attempt, exactly as
the regex engine does). -/
def vsMatch : List Char → Option (String × String)
  | [] => none
  | c :: cs =>
    match vsHere (c :: cs) with
    | some p => some p
    | none => vsMatch cs

/-- The fuzzy key comparison used for each side of the pair pattern. -/
def fuzzyKeyEq (k target : String) : Bool :=
  let kl := lowerL k.toList
  let tl := lowerL target.toList
  decide (kl = tl) || hasSubL tl kl || hasSubL kl tl ||
    decide (stripUnderDash kl = stripUnderDash tl)

/-- `replace(/_/g, " ")` only. -/
def underToSpace (s : List Char) : List Char :=
  s.map (fun c => if c = '_' then ' ' else c)

/-- `replace(/\./g, " ")` only. -/
def dotToSpace (s : List Char) : List Char :=
  s.map (fun c => if c = '.' then ' ' else c)

/-- `word.toLowerCase().replace(/[^a-z0-9]/g, "")`. -/
def cleanWord (w : List Char) : List Char :=
  (lowerL w).filter (fun c => ('a' ≤ c ∧ c ≤ 'z') ∨ ('0' ≤ c ∧ c ≤ '9'))

/-- The per-key "is mentioned in the prompt" test (lines 262-289).
`pl` is the lowercased trimmed prompt, `plWords` its `/\s+/` split. -/
def keyIsMentioned (pl : List Char) (plWords : List (List Char)) (key : String) : Bool :=
  let keyLower := lowerL key.toList
  let keyFormatted := lowerL (underDashToSpace key.toList)
  let keyNoUnderscore := stripUnderDash keyLower
  let keyParts := splitKeepEmpty (fun c => c = '.' ∨ c = '_' ∨ c = '-') keyLower
  hasSubL keyLower pl ||
  hasSubL keyFormatted pl ||
  hasSubL (lowerL (underToSpace key.toList)) pl ||
  hasSubL (lowerL (dotToSpace key.toList)) pl ||
  keyParts.any (fun part => part.length ≥ 3 && hasSubL part pl) ||
  plWords.any (fun word =>
    let wordClean := cleanWord word
    wordClean.length ≥ 3 &&
      (hasSubL wordClean keyNoUnderscore || hasSubL keyNoUnderscore wordClean ||
        keyParts.any (fun part =>
          hasSubL wordClean part || hasSubL part wordClean)))

/-- `mentionedKeys`: the pair-pattern hits (each pushed when found and
not already present) followed by every directly mentioned key in
`allKeys` order. `prompt` is the raw prompt (the pair pattern runs on it),
`pl` the lowercased trimmed prompt. -/
def mentionedKeysOf (allKeys : List String) (prompt : String) (pl : List Char) : List String :=
  let fromVs : List String :=
    match vsMatch prompt.toList with
    | none => []
    | some (k1, k2) =>
      let f1 := allKeys.find? (fun k => fuzzyKeyEq k (trimS k1))
      let f2 := allKeys.find? (fun k => fuzzyKeyEq k (trimS k2))
      let l1 : List String := match f1 with | some k => [k] | none => []
      match f2 with
      | some k => if k ∈ l1 then l1 else l1 ++ [k]
      | none => l1
  let plWords := splitWsRuns pl
  allKeys.foldl
    (fun acc key =>
      if keyIsMentioned pl plWords key && key ∉ acc then acc ++ [key] else acc)
    fromVs

/-- The name-key semantic pattern of the mentioned-key resolution
(line 306; a shorter list than the classifier's). -/
def mentionNameWords : List String :=
  ["name", "label", "category", "title", "id", "key", "agent", "period",
   "quarter", "week", "season", "location", "region", "country", "city",
   "state", "product", "item", "type", "class", "group", "team",
   "department", "tag"]

/-! ## Color extraction (`extractColors`, src/unnamed/part_001 lines 355-428) -/

/-- The fixed name→hex table, in object insertion order. -/
def colorMap : List (String × String) :=
  [("red", "#ff0000"), ("blue", "#0066ff"), ("green", "#00cc00"),
   ("yellow", "#ffcc00"), ("orange", "#ff6600"), ("purple", "#9900cc"),
   ("pink", "#ff00cc"), ("teal", "#00cccc"), ("cyan", "#00ffff"),
   ("magenta", "#ff00ff"), ("lime", "#00ff00"), ("brown", "#8b4513"),
   ("black", "#000000"), ("white", "#ffffff"), ("gray", "#808080"),
   ("grey", "#808080"), ("navy", "#000080"), ("maroon", "#800000"),
   ("olive", "#808000"), ("aqua", "#00ffff"), ("silver", "#c0c0c0"),
   ("gold", "#ffd700"), ("indigo", "#4b0082"), ("violet", "#8a2be2"),
   ("coral", "#ff7f50"), ("salmon", "#fa8072"), ("turquoise", "#40e0d0"),
   ("khaki", "#f0e68c"), ("lavender", "#e6e6fa"), ("plum", "#dda0dd"),
   ("beige", "#f5f5dc"), ("tan", "#d2b48c")]

/-- Hex digit for the `/#[0-9a-f]{3,6}/gi` class. -/
def isHexChar (c : Char) : Bool :=
  ('0' ≤ c ∧ c ≤ '9') ∨ ('a' ≤ c ∧ c ≤ 'f') ∨ ('A' ≤ c ∧ c ≤ 'F')

/-- Take up to `n` hex characters. -/
def takeHex : Nat → List Char → List Char × List Char
  | 0, s => ([], s)
  | _, [] => ([], [])
  | n + 1, c :: cs =>
    if isHexChar c then
      let (h, r) := takeHex n cs
      (c :: h, r)
    else ([], c :: cs)

/-- All matches of `/#[0-9a-f]{3,6}/gi` in order: the global scan resumes
after each match and a failed attempt advances one character. Structured
with fuel (the string's length) so the recursion is structural; every
step consumes at least one character, so the fuel never runs out. -/
def scanHexF : Nat → List Char → List String
  | 0, _ => []
  | _ + 1, [] => []
  | fuel + 1, c :: cs =>
    if c = '#' then
      let (ds, rest') := takeHex 6 cs
      if ds.length ≥ 3 then ⟨'#' :: ds⟩ :: scanHexF fuel rest'
      else scanHexF fuel cs
    else scanHexF fuel cs

/-- `promptText.match(/#[0-9a-f]{3,6}/gi)` as a list. -/
def scanHexColors (s : List Char) : List String := scanHexF s.length s

/-- 3-digit to 6-digit normalization (`#rgb` → `#rrggbb`), applied to a
4-character match; other matches pass through. -/
def normalizeHex (hex : String) : String :=
  match hex.toList with
  | ['#', r, g, b] => ⟨['#', r, r, g, g, b, b]⟩
  | _ => hex

/-- One attempt of `/rgba?\([^)]+\)/i` at the head: `rgb`, an optional
`a`, `(`, at least one non-`)` character, `)`; returns the matched slice
and the rest. -/
def rgbHere (s : List Char) : Option (List Char × List Char) :=
  match matchLitCI "rgb".toList s with
  | none => none
  | some r =>
    let (aPart, r') :=
      match r with
      | c :: cs => if lowerChar c = 'a' then ([c], cs) else ([], r)
      | [] => ([], r)
    match r' with
    | '(' :: body =>
      let inner := body.takeWhile (fun c => c ≠ ')')
      let after := body.drop inner.length
      if inner.length = 0 then none
      else
        match after with
        | ')' :: rest =>
          some (s.take (3 + aPart.length) ++ '(' :: inner ++ [')'], rest)
        | _ => none
    | _ => none

/-- All matches of `/rgba?\([^)]+\)/gi` in order, fuelled like
`scanHexF` (every step consumes at least one character). -/
def scanRgbF : Nat → List Char → List String
  | 0, _ => []
  | _ + 1, [] => []
  | fuel + 1, c :: cs =>
    match rgbHere (c :: cs) with
    | some (m, rest) => ⟨m⟩ :: scanRgbF fuel rest
    | none => scanRgbF fuel cs

/-- `promptText.match(/rgba?\([^)]+\)/gi)` as a list. -/
def scanRgbColors (s : List Char) : List String := scanRgbF s.length s

/-- `extractColors(promptText)`: named colors in table order, then hex
literals (3-digit forms normalized), then rgb()/rgba() literals;
deduplicated preserving discovery order; `undefined` (`none`) when
nothing was found. -/
def extractColors (promptText : String) : Option (List String) :=
  let fromNames := (colorMap.filter (fun p => kwMatches p.1 promptText)).map Prod.snd
  let fromHex := (scanHexColors promptText.toList).map normalizeHex
  let fromRgb := scanRgbColors promptText.toList
  let uniqueColors := dedupFirst (fromNames ++ fromHex ++ fromRgb)
  if uniqueColors.length > 0 then some uniqueColors else none

/-! ## The option model

The embedding of the produced ECharts option structures keeps every
data-bearing part (series names/types/data, category-axis labels,
node/link/tree payloads, the calendar range); pure styling constants are
omitted. -/

/-- One series datum. -/
inductive OptDatum where
  | num (x : JsNum)
  | numArr (xs : List JsNum)
  | optNumArr (xs : List (Option JsNum))
  | named (name : String) (value : JsNum)
  | strNum (s : String) (x : JsNum)
  | sdat (date : String) (value : JsNum) (ser : String)
  | vecNamed (name : String) (values : List JsNum)
  | polyline (coords : List (List JsNum))
  deriving DecidableEq

/-- A graph/sankey node. -/
structure NodeE where
  name : String
  value : Option JsNum := none
  category : Option Nat := none
  deriving DecidableEq

/-- A graph/sankey link. -/
structure LinkE where
  source : String
  target : String
  value : JsNum
  deriving DecidableEq

/-- A tree-chart node. -/
inductive TreeNodeE where
  | node (name : String) (value : JsNum) (children : List TreeNodeE)

/-- One series of an option. -/
structure SeriesE where
  name : Option String := none
  stype : String
  sdata : List OptDatum := []
  stack : Option String := none
  nodes : List NodeE := []
  links : List LinkE := []
  treeData : List TreeNodeE := []

/-- A produced option structure. -/
structure OptionE where
  series : List SeriesE
  xAxisData : Option (List String) := none
  angleAxisData : Option (List String) := none
  calendarRange : Option (String × String) := none
  parallelAxisNames : List String := []

/-- `EChartsElementConfig`. -/
structure EConfigE where
  nameKey : String
  valueKey : String
  dataKeys : Option (List String) := none
  colors : List String := []
  isStacked : Bool := false
  isGrouped : Bool := false
  hasTrendline : Bool := false
  multipleTrendlines : Bool := false
  data : List (List (String × JsVal)) := []

/-- `typeof val === "number" ? val : 0`. -/
def numOr0 : JsVal → JsNum
  | .num x => x
  | _ => .fin 0

/-- The number / numeric-string / zero coercion
(`typeof val === "number" ? val : typeof val === "string" ? parseFloat(val) || 0 : 0`). -/
def numStrOr0 : JsVal → JsNum
  | .num x => x
  | .str s =>
    let r := parseFloatJs s
    if r.truthy then r else .fin 0
  | _ => .fin 0

/-- `config.dataKeys || [config.valueKey]` (an empty array is truthy). -/
def keysOf (cfg : EConfigE) : List String :=
  match cfg.dataKeys with
  | some ks => ks
  | none => [cfg.valueKey]

/-- The category-axis labels `config.data.map(item => String(item[nameKey] || ""))`. -/
def xAxisOf (cfg : EConfigE) : List String :=
  cfg.data.map (fun item => strOrEmpty (getVal item cfg.nameKey))

/-- `String(v || dflt)`. -/
def strOrElse (v : JsVal) (dflt : String) : String :=
  if v.truthy then jsToString v else dflt

/-! ## The option builders (echartsConfig.ts `generateOption` functions) -/

/-- `bar` (also the shape of `stackedbar`/`groupedbar` via `stk`). -/
def barLikeOption (stype : String) (stk : EConfigE → Option String) (cfg : EConfigE) : OptionE :=
  { series :=
      (keysOf cfg).map (fun key =>
        { name := some key
          stype := stype
          sdata := cfg.data.map (fun item => .num (numOr0 (getVal item key)))
          stack := stk cfg })
    xAxisData := some (xAxisOf cfg) }

/-- Ordinary-least-squares trendline values over the index-ordered
sequence, with JS number arithmetic. -/
def linRegData (values : List JsNum) : List JsNum :=
  let n : JsNum := .fin values.length
  let sumX : JsNum := (mapIdxL (fun i _ => JsNum.fin i) values).foldl .add (.fin 0)
  let sumY : JsNum := values.foldl .add (.fin 0)
  let sumXY : JsNum := (mapIdxL (fun i v => JsNum.mul (.fin i) v) values).foldl .add (.fin 0)
  let sumXX : JsNum := (mapIdxL (fun i _ => JsNum.fin (i * i : Nat)) values).foldl .add (.fin 0)
  let slope := JsNum.div (JsNum.sub (JsNum.mul n sumXY) (JsNum.mul sumX sumY))
      (JsNum.sub (JsNum.mul n sumXX) (JsNum.mul sumX sumX))
  let intercept := JsNum.div (JsNum.sub sumY (JsNum.mul slope sumX)) n
  mapIdxL (fun i _ => JsNum.add (JsNum.mul slope (.fin i)) intercept) values

/-- `line`: one smooth line per key, plus one dashed OLS trendline per
trend-eligible key when requested. -/
def lineOption (cfg : EConfigE) : OptionE :=
  let keys := keysOf cfg
  let base := keys.map (fun key =>
    { name := some key
      stype := "line"
      sdata := cfg.data.map (fun item => .num (numOr0 (getVal item key))) : SeriesE })
  let trendKeys :=
    match cfg.dataKeys with
    | some ks => if cfg.multipleTrendlines then ks else [cfg.valueKey]
    | none => [cfg.valueKey]
  let trends := trendKeys.map (fun key =>
    let values := cfg.data.map (fun item => numOr0 (getVal item key))
    { name := some (key ++ " Trend")
      stype := "line"
      sdata := (linRegData values).map .num : SeriesE })
  { series := base ++ (if cfg.hasTrendline then trends else [])
    xAxisData := some (xAxisOf cfg) }

/-- `area` (stacks only on request) and `stackedarea` (always stacked):
line-typed series with an area style. -/
def areaLikeOption (stk : EConfigE → Option String) (cfg : EConfigE) : OptionE :=
  { series :=
      (keysOf cfg).map (fun key =>
        { name := some key
          stype := "line"
          sdata := cfg.data.map (fun item => .num (numOr0 (getVal item key)))
          stack := stk cfg })
    xAxisData := some (xAxisOf cfg) }

/-- `pie` and `donut`: a single series of (name, value) pairs with the
number/numeric-string/zero coercion. -/
def pieOption (cfg : EConfigE) : OptionE :=
  { series :=
      [{ name := some cfg.valueKey
         stype := "pie"
         sdata := cfg.data.map (fun item =>
           .named (strOrEmpty (getVal item cfg.nameKey))
             (numStrOr0 (getVal item cfg.valueKey))) }] }

/-- `scatter`, `bubble` and `effectscatter` share their data shape:
per-key series of `[x, y]` pairs. -/
def scatterLikeOption (stype : String) (cfg : EConfigE) : OptionE :=
  { series :=
      (keysOf cfg).map (fun key =>
        { name := some key
          stype := stype
          sdata := cfg.data.map (fun item =>
            .numArr [numOr0 (getVal item cfg.nameKey), numOr0 (getVal item key)]) }) }

/-- `radar`: one series per key holding a single named value vector. -/
def radarOption (cfg : EConfigE) : OptionE :=
  { series :=
      (keysOf cfg).map (fun key =>
        { name := some key
          stype := "radar"
          sdata := [.vecNamed key
            (cfg.data.map (fun item => numOr0 (getVal item key)))] }) }

/-- `heatmap`: `[idx, 0, value]` triples on one row. -/
def heatmapOption (cfg : EConfigE) : OptionE :=
  { series :=
      [{ name := some cfg.valueKey
         stype := "heatmap"
         sdata := mapIdxL (fun idx item =>
           .numArr [.fin idx, .fin 0, numStrOr0 (getVal item cfg.valueKey)]) cfg.data }]
    xAxisData := some (xAxisOf cfg) }

/-- `treemap` / `sunburst`: a single series of (name, value) records. -/
def namedTreeOption (stype : String) (cfg : EConfigE) : OptionE :=
  { series :=
      [{ stype := stype
         sdata := cfg.data.map (fun item =>
           .named (strOrEmpty (getVal item cfg.nameKey))
             (numStrOr0 (getVal item cfg.valueKey))) }] }

/-- `funnel`: a named series of (name, value) records (the descending
layout sort is a renderer directive, not a data transformation). -/
def funnelOption (cfg : EConfigE) : OptionE :=
  { series :=
      [{ name := some cfg.valueKey
         stype := "funnel"
         sdata := cfg.data.map (fun item =>
           .named (strOrEmpty (getVal item cfg.nameKey))
             (numStrOr0 (getVal item cfg.valueKey))) }] }

/-- Node-name fallback `String(item[nameKey] || "Node" + idx)`. -/
def chainNodeName (cfg : EConfigE) (item : List (String × JsVal)) (idx : Nat) : String :=
  strOrElse (getVal item cfg.nameKey) ("Node" ++ natRepr idx)

/-- `sankey`: consecutive records become linked nodes; both endpoints are
deduplicated into the node list by name. -/
def sankeyBuild (cfg : EConfigE) :
    List (List (String × JsVal)) → Nat → List NodeE → List LinkE → List NodeE × List LinkE
  | [], _, ns, ls => (ns, ls)
  | [item], idx, ns, ls =>
    let source := chainNodeName cfg item idx
    ((if ns.any (fun n => n.name = source) then ns else ns ++ [{ name := source }]), ls)
  | item :: next :: rest, idx, ns, ls =>
    let source := chainNodeName cfg item idx
    let value := numOr0 (getVal item cfg.valueKey)
    let ns := if ns.any (fun n => n.name = source) then ns else ns ++ [{ name := source }]
    let target := chainNodeName cfg next (idx + 1)
    let ns := if ns.any (fun n => n.name = target) then ns else ns ++ [{ name := target }]
    sankeyBuild cfg (next :: rest) (idx + 1) ns (ls ++ [{ source := source, target := target, value := value }])

/-- `sankey`. -/
def sankeyOption (cfg : EConfigE) : OptionE :=
  let (ns, ls) := sankeyBuild cfg cfg.data 0 [] []
  { series := [{ stype := "sankey", nodes := ns, links := ls }] }

/-- `graph`: like sankey, but nodes carry value and category, and only
the source endpoint of each link is deduplicated into the node list. -/
def graphBuild (cfg : EConfigE) :
    List (List (String × JsVal)) → Nat → List NodeE → List LinkE → List NodeE × List LinkE
  | [], _, ns, ls => (ns, ls)
  | item :: rest, idx, ns, ls =>
    let nodeName := chainNodeName cfg item idx
    let nodeValue := numOr0 (getVal item cfg.valueKey)
    let ns :=
      if ns.any (fun n => n.name = nodeName) then ns
      else ns ++ [{ name := nodeName, value := some nodeValue, category := some 0 }]
    let ls :=
      match rest with
      | next :: _ =>
        ls ++ [{ source := nodeName, target := chainNodeName cfg next (idx + 1), value := nodeValue }]
      | [] => ls
    graphBuild cfg rest (idx + 1) ns ls

/-- `graph`. -/
def graphOption (cfg : EConfigE) : OptionE :=
  let (ns, ls) := graphBuild cfg cfg.data 0 [] []
  { series := [{ stype := "graph", nodes := ns, links := ls }] }

/-- `radialbar` (gauge): a single datum from the first record. -/
def radialbarOption (cfg : EConfigE) : OptionE :=
  let v := match cfg.data.head? with
    | some it => getVal it cfg.valueKey
    | none => .jsUndefVal
  let nm := match cfg.data.head? with
    | some it => getVal it cfg.nameKey
    | none => .jsUndefVal
  { series :=
      [{ name := some cfg.valueKey
         stype := "gauge"
         sdata := [.named (strOrEmpty nm) (numStrOr0 v)] }] }

/-- `polararea`: polar bar series with the numeric-string coercion. -/
def polarareaOption (cfg : EConfigE) : OptionE :=
  { series :=
      (keysOf cfg).map (fun key =>
        { name := some key
          stype := "bar"
          sdata := cfg.data.map (fun item => .num (numStrOr0 (getVal item key))) })
    angleAxisData := some (xAxisOf cfg) }

/-- `histogram`: a plain bar series over the value key. -/
def histogramOption (cfg : EConfigE) : OptionE :=
  { series :=
      [{ name := some cfg.valueKey
         stype := "bar"
         sdata := cfg.data.map (fun item => .num (numOr0 (getVal item cfg.valueKey))) }]
    xAxisData := some (xAxisOf cfg) }

/-- The comparator sort `values.sort((a, b) => a - b)`: a stable ascending
sort. (With NaN present the JS comparator is inconsistent and the order
implementation-defined; the relation used here totalizes it by placing
NaN last.) -/
def sortNums (l : List JsNum) : List JsNum :=
  l.insertionSort (fun a b => JsNum.leB a b = true)

/-- `boxplot`: the five-number summary `[min, Q1, median, Q3, max]` by
nearest rank on the sorted, zero-coerced value list. `Math.floor(n*0.25)`,
`Math.floor(n*0.5)` and `Math.floor(n*0.75)` are the exact naturals
`n/4`, `n/2` and `3*n/4` (the products are exactly representable).
An out-of-range index (empty data) yields `undefined`, modelled as
`none`. -/
def boxplotOption (cfg : EConfigE) : OptionE :=
  let values := sortNums (cfg.data.map (fun item => numOr0 (getVal item cfg.valueKey)))
  let n := values.length
  { series :=
      [{ name := some cfg.valueKey
         stype := "boxplot"
         sdata := [.optNumArr
           [values.get? 0, values.get? (n / 4), values.get? (n / 2),
            values.get? (3 * n / 4), values.get? (n - 1)]] }]
    xAxisData := some (xAxisOf cfg) }

/-- `lollipop`: `[index, value]` scatter points (each record is a fresh
object reference, so `config.data.indexOf(item)` is the position). -/
def lollipopOption (cfg : EConfigE) : OptionE :=
  { series :=
      [{ name := some cfg.valueKey
         stype := "scatter"
         sdata := mapIdxL (fun i item =>
           .numArr [.fin i, numStrOr0 (getVal item cfg.valueKey)]) cfg.data }]
    xAxisData := some (xAxisOf cfg) }

/-- `density`: a smooth area line over the value key. -/
def densityOption (cfg : EConfigE) : OptionE :=
  { series :=
      [{ name := some cfg.valueKey
         stype := "line"
         sdata := cfg.data.map (fun item => .num (numOr0 (getVal item cfg.valueKey))) }]
    xAxisData := some (xAxisOf cfg) }

/-- `candlestick` key selection: the first four keys when at least four
are resolved; otherwise position 0 reads `keys[0]` (possibly absent) and
positions 1-3 read `keys[0] || valueKey`. -/
def ohlcKeysOf (cfg : EConfigE) : List (Option String) :=
  let keys := keysOf cfg
  if keys.length ≥ 4 then (keys.take 4).map some
  else
    let k0 := keys.head?
    let k0' : Option String :=
      some (match k0 with
            | some k => if k = "" then cfg.valueKey else k
            | none => cfg.valueKey)
    [k0, k0', k0', k0']

/-- Property read through a possibly-absent key. -/
def getValOpt (item : List (String × JsVal)) : Option String → JsVal
  | some k => getVal item k
  | none => .jsUndefVal

/-- One candlestick record: `[open, close, low, high]`, where a
non-numeric low/high is synthesized as min/max of open and close. -/
def candlestickDatum (ohlc : List (Option String)) (item : List (String × JsVal)) : OptDatum :=
  let _open := numOr0 (getValOpt item (ohlc.getD 0 none))
  let close := numOr0 (getValOpt item (ohlc.getD 1 none))
  let low :=
    match getValOpt item (ohlc.getD 2 none) with
    | .num x => x
    | _ => JsNum.jsMin _open close
  let high :=
    match getValOpt item (ohlc.getD 3 none) with
    | .num x => x
    | _ => JsNum.jsMax _open close
  .numArr [_open, close, low, high]

/-- `candlestick`. -/
def candlestickOption (cfg : EConfigE) : OptionE :=
  let ohlc := ohlcKeysOf cfg
  { series :=
      [{ name := some "Candlestick"
         stype := "candlestick"
         sdata := cfg.data.map (candlestickDatum ohlc) }]
    xAxisData := some (xAxisOf cfg) }

/-- `parallel`: one polyline of per-axis values per record. -/
def parallelOption (cfg : EConfigE) : OptionE :=
  let keys := keysOf cfg
  { series :=
      [{ stype := "parallel"
         sdata := cfg.data.map (fun item =>
           .numArr (keys.map (fun key => numStrOr0 (getVal item key)))) }]
    parallelAxisNames := keys }

/-- `themeriver`: one (date, value, series-name) triple per
(record, key) pair, record-major. -/
def themeriverOption (cfg : EConfigE) : OptionE :=
  let keys := keysOf cfg
  { series :=
      [{ stype := "themeRiver"
         sdata := cfg.data.flatMap (fun item =>
           keys.map (fun key =>
             .sdat (strOrEmpty (getVal item cfg.nameKey))
               (numStrOr0 (getVal item key)) key)) }] }

/-- `lines`: a single polyline of `[x, y]` coordinates, where a
non-numeric x falls back to the record index. -/
def linesOption (cfg : EConfigE) : OptionE :=
  { series :=
      [{ stype := "lines"
         sdata := [.polyline (mapIdxL (fun idx item =>
           [(match getVal item cfg.nameKey with
             | .num x => x
             | _ => .fin idx),
            numOr0 (getVal item cfg.valueKey)]) cfg.data)] }] }

/-- `tree`: first record as root, remaining records as flat children
(each record is a fresh reference, so `items.indexOf(item)` is the
1-based position of the child). -/
def treeOption (cfg : EConfigE) : OptionE :=
  match cfg.data with
  | [] => { series := [] }
  | first :: rest =>
    let root : TreeNodeE := .node (strOrElse (getVal first cfg.nameKey) "Root")
      (numStrOr0 (getVal first cfg.valueKey))
      (mapIdxL (fun i item =>
        .node (strOrElse (getVal item cfg.nameKey) ("Node" ++ natRepr (i + 1)))
          (numStrOr0 (getVal item cfg.valueKey)) []) rest)
    { series := [{ stype := "tree", treeData := [root] }] }

/-- `calendar`: `[dateString, value]` pairs; the display range is the
lexicographic min/max of the date strings (JS default `sort`), with
fixed fallbacks. -/
def calendarOption (cfg : EConfigE) : OptionE :=
  let calendarData := cfg.data.map (fun item =>
    ((match getVal item cfg.nameKey with
      | .str s => s
      | v => jsToString v),
     numStrOr0 (getVal item cfg.valueKey)))
  let dates := (calendarData.map Prod.fst).insertionSort (fun a b : String => a ≤ b)
  let startDate := orStr dates.head? "2024-01-01"
  let endDate := orStr dates.getLast? "2024-12-31"
  { series := [{ stype := "heatmap", sdata := calendarData.map (fun p => .strNum p.1 p.2) }]
    calendarRange := some (startDate, endDate) }

/-- The option builder of each registry entry. The catch-all branch is
unreachable for registry keys (all thirty are enumerated). -/
def generateOptionFor : String → EConfigE → OptionE
  | "bar" => barLikeOption "bar" (fun cfg => if cfg.isStacked then some "stack1" else none)
  | "stackedbar" => barLikeOption "bar" (fun _ => some "stack1")
  | "groupedbar" => barLikeOption "bar" (fun _ => none)
  | "line" => lineOption
  | "area" => areaLikeOption (fun cfg => if cfg.isStacked then some "stack1" else none)
  | "stackedarea" => areaLikeOption (fun _ => some "stack1")
  | "pie" => pieOption
  | "donut" => pieOption
  | "scatter" => scatterLikeOption "scatter"
  | "bubble" => scatterLikeOption "scatter"
  | "radar" => radarOption
  | "heatmap" => heatmapOption
  | "treemap" => namedTreeOption "treemap"
  | "funnel" => funnelOption
  | "sankey" => sankeyOption
  | "sunburst" => namedTreeOption "sunburst"
  | "radialbar" => radialbarOption
  | "polararea" => polarareaOption
  | "histogram" => histogramOption
  | "boxplot" => boxplotOption
  | "lollipop" => lollipopOption
  | "density" => densityOption
  | "candlestick" => candlestickOption
  | "parallel" => parallelOption
  | "graph" => graphOption
  | "themeriver" => themeriverOption
  | "effectscatter" => scatterLikeOption "effectScatter"
  | "lines" => linesOption
  | "tree" => treeOption
  | "calendar" => calendarOption
  | _ => fun _ => { series := [] }

/-- `getEChartsConfig(t) !== null`: is `t` a registry key? -/
def registryHasType (t : String) : Bool :=
  registryKeys.any (fun k => k = t)

/-! ## The fingerprint (`dataPromptHash`, src/unnamed/part_001 lines 164-178) -/

/-- `JSON.stringify(data)` of the data array. -/
def dataJson (data : List JsVal) : String :=
  jsonStr (.arr (.ofList data))

/-- The (data, prompt) fingerprint: trimmed prompt, data length,
serialized length, and the first and last 100 characters of the
serialization. (`JSON.stringify` cannot throw on the JSON-shaped values
modelled here, so the `catch` fallback is unreachable; string lengths
count characters, which agrees with JS UTF-16 lengths on the basic
plane.) -/
def dataPromptHash (data : List JsVal) (prompt : String) : String :=
  if data.isEmpty || prompt = "" then ""
  else
    let dataStr := dataJson data
    let promptHash := trimS prompt
    let dataStart : String := ⟨dataStr.toList.take 100⟩
    let dataEnd : String := ⟨dataStr.toList.drop (dataStr.toList.length - 100)⟩
    promptHash ++ "_" ++ natRepr data.length ++ "_" ++ natRepr dataStr.toList.length ++
      "_" ++ dataStart ++ "_" ++ dataEnd

/-! ## The Config Assembler (the assembly `useEffect`,
src/unnamed/part_001 lines 181-510) -/

/-- `GeneratedChartConfig`. -/
structure GeneratedChartConfigE where
  chartType : String
  echartsOption : OptionE
  mappingNameKey : String
  mappingValueKey : String
  mappingDataKeys : Option String := none
  colors : List String
  promptHash : String

/-- The component state owned by the assembler: the last accepted
fingerprint (`previousHashRef`), the stored configuration and the error
message. -/
structure AssemblerState where
  previousHash : String := ""
  chartConfig : Option GeneratedChartConfigE := none
  error : Option String := none

/-- The effect's guard:
`data && data.length > 0 && prompt && prompt.trim().length > 0 && dataKeys.nameKey && dataKeys.valueKey`. -/
def assembleGuard (data : List JsVal) (prompt : String) (dk : DataKeysResult) : Bool :=
  !data.isEmpty && prompt ≠ "" && trimS prompt ≠ "" && dk.nameKey ≠ "" && dk.valueKey ≠ ""

/-- The resolved field assignment. -/
structure ResolvedKeys where
  nameKeyToUse : String
  valueKeyToUse : String
  dataKeysToUse : Option String := none

/-- Field-role resolution (lines 296-352): mentioned-key overrides
followed by the comparison-intent block. -/
def resolveKeys (dk : DataKeysResult) (prompt : String) (pl : String)
    (multipleTrendlines : Bool) : ResolvedKeys :=
  let mentionedKeys := mentionedKeysOf dk.allKeys prompt pl.toList
  let nameKey1 :=
    if mentionedKeys.length > 0 then
      match mentionedKeys.find? (fun key =>
        dk.stringKeys.contains key || dk.dateKeys.contains key ||
          semTest mentionNameWords key) with
      | some k => k
      | none => dk.nameKey
    else dk.nameKey
  let mentionedValueKeys :=
    if mentionedKeys.length > 0 then
      mentionedKeys.filter (fun key =>
        dk.numericKeys.contains key || semTest valueWords key)
    else []
  let valueKey1 :=
    match mentionedValueKeys with
    | [] => dk.valueKey
    | v :: _ => v
  let dataKeys1 : Option String :=
    if mentionedValueKeys.length > 1 then some (joinSep "," mentionedValueKeys) else none
  if (jsIncludes pl " vs " || jsIncludes pl " versus " || jsIncludes pl " and " ||
      multipleTrendlines) && dk.numericKeys.length ≥ 2 then
    let promptWords := splitWsRuns pl.toList
    let matchingKeys := dk.numericKeys.filter (fun key =>
      let keyLower := lowerL key.toList
      promptWords.any (fun word =>
        word.length ≥ 3 && (hasSubL word keyLower || hasSubL keyLower word)))
    if matchingKeys.length ≥ 2 then
      { nameKeyToUse := nameKey1
        valueKeyToUse := matchingKeys.headD ""
        dataKeysToUse := some (joinSep "," matchingKeys) }
    else if dk.numericKeys.length ≥ 2 then
      { nameKeyToUse := nameKey1
        valueKeyToUse := dk.numericKeys.headD ""
        dataKeysToUse := some (joinSep "," (dk.numericKeys.take 2)) }
    else
      { nameKeyToUse := nameKey1, valueKeyToUse := valueKey1, dataKeysToUse := dataKeys1 }
  else
    { nameKeyToUse := nameKey1, valueKeyToUse := valueKey1, dataKeysToUse := dataKeys1 }

/-- `JsFields` back to an association list (raw records reaching a
builder untransformed; property access on non-objects yields nothing). -/
def recOfVal : JsVal → List (String × JsVal)
  | .obj fs => fieldsList fs
  | _ => []
where
  fieldsList : JsFields → List (String × JsVal)
    | .nil => []
    | .cons k v rest => (k, v) :: fieldsList rest

/-- `dataKeysToUse.split(",").map(k => k.trim())`. -/
def splitCommaTrim (s : String) : List String :=
  (splitKeepEmpty (fun c => c = ',') s.toList).map (fun t => trimS ⟨t⟩)

/-- The recomputation body of the assembly effect (everything after the
skip check). Arguments model the host nondeterminism: `dp` is
`Date.parse` validity and `palette` the cached random palette slice
`getRandomColorPalette(20)` (stable within a session, hence a single
parameter). Returns the new state together with the number of
option-builder invocations (0 or 1) performed. -/
def assembleCore (dp : String → Bool) (palette : List String)
    (data : List JsVal) (prompt : String) (st : AssemblerState) :
    AssemblerState × Nat :=
  let dk := dataKeys dp data
  let hash := dataPromptHash data prompt
  let pl := trimS (lowerS prompt)
  let multi := multiTrendCond pl
  let hasTrend := hasTrendlineOf pl
  let ct0 := detectEChartsType prompt
  let ct1 := if hasTrend && ct0 ≠ "line" && ct0 ≠ "scatter" then "line" else ct0
  let rk := resolveKeys dk prompt pl multi
  let extracted := extractColors pl
  let found := registryHasType ct1
  let ct2 := if found then ct1 else "bar"
  let isStacked := ct2 = "stackedbar" || ct2 = "stackedarea"
  let isGrouped := ct2 = "groupedbar"
  let dataToUse :=
    if dk.flattenedData.length > 0 then dk.flattenedData else data.map recOfVal
  let colors :=
    match extracted with
    | some cs => if cs.length > 0 then cs else palette
    | none => palette
  let cfg : EConfigE :=
    { nameKey := rk.nameKeyToUse
      valueKey := rk.valueKeyToUse
      dataKeys := rk.dataKeysToUse.map splitCommaTrim
      colors := colors
      isStacked := isStacked
      isGrouped := isGrouped
      hasTrendline := hasTrend
      multipleTrendlines := multi
      data := dataToUse }
  if found then
    ({ previousHash := hash
       chartConfig := some
         { chartType := ct2
           echartsOption := generateOptionFor ct1 cfg
           mappingNameKey := rk.nameKeyToUse
           mappingValueKey := rk.valueKeyToUse
           mappingDataKeys :=
             match rk.dataKeysToUse with
             | some s => if s ≠ "" then some s else none
             | none => none
           colors := colors
           promptHash := hash }
       error := none }, 1)
  else
    ({ previousHash := hash
       chartConfig := st.chartConfig
       error := some ("Failed to generate chart configuration for type: " ++ ct2) }, 0)

/-- One run of the assembly effect: the guard, the fingerprint skip
check, and on acceptance the recomputation. -/
def assembleStep (dp : String → Bool) (palette : List String)
    (data : List JsVal) (prompt : String) (st : AssemblerState) :
    AssemblerState × Nat :=
  let dk := dataKeys dp data
  let hash := dataPromptHash data prompt
  if assembleGuard data prompt dk then
    if st.previousHash = hash then (st, 0)
    else assembleCore dp palette data prompt st
  else
    ({ previousHash := "", chartConfig := none, error := st.error }, 0)

/-! ## Lemmas about the assembler -/

/-- A successful keyword search returns one of the searched entries' keys. -/
theorem detectFromConfigs_mem : ∀ (L : List (String × List String)) (pl t : String),
    detectFromConfigs L pl = some t → t ∈ L.map Prod.fst := by
  intro L
  induction L with
  | nil => intro pl t h; simp [detectFromConfigs] at h
  | cons e rest ih =>
    intro pl t h
    obtain ⟨tk, kws⟩ := e
    simp only [detectFromConfigs] at h
    split at h
    · cases h; simp
    · simpa using Or.inr (ih pl t h)

/-- Registry lookup succeeds on registry keys. -/
theorem registryHasType_of_mem {t : String} (h : t ∈ registryKeys) :
    registryHasType t = true := by
  simp only [registryHasType, List.any_eq_true]
  exact ⟨t, h, by simp⟩

/-- The comparator sort permutes the registry entries. -/
theorem sortedConfigs_perm : sortedConfigs.Perm registryKeywords :=
  List.perm_insertionSort _ _

/-- `detectEChartsType` always returns a registry key. -/
theorem detectEChartsType_mem (p : String) : detectEChartsType p ∈ registryKeys := by
  simp only [detectEChartsType]
  split
  · decide
  · split
    · next t heq =>
      exact ((sortedConfigs_perm).map Prod.fst).mem_iff.mp (detectFromConfigs_mem _ _ _ heq)
    · decide

/-- Registry lookup succeeds on the trendline-overridden chart type, so
the option builder is always invoked on an accepted recomputation. -/
theorem registryHasType_ite (p : String) (c : Prop) [Decidable c] :
    registryHasType (if c then "line" else detectEChartsType p) = true := by
  split
  · decide
  · exact registryHasType_of_mem (detectEChartsType_mem p)

/-- A recomputation records the fingerprint it was computed from. -/
theorem assembleCore_prevHash (dp : String → Bool) (palette : List String)
    (data : List JsVal) (prompt : String) (st : AssemblerState) :
    (assembleCore dp palette data prompt st).1.previousHash = dataPromptHash data prompt := by
  simp only [assembleCore, registryHasType_ite, if_true]

/-- A recomputation invokes the option builder exactly once. -/
theorem assembleCore_count (dp : String → Bool) (palette : List String)
    (data : List JsVal) (prompt : String) (st : AssemblerState) :
    (assembleCore dp palette data prompt st).2 = 1 := by
  simp only [assembleCore, registryHasType_ite, if_true]

/-- An unchanged fingerprint short-circuits the effect: no builder call,
no state change. -/
theorem assembleStep_skip {dp : String → Bool} {palette : List String}
    {data : List JsVal} {prompt : String} {st : AssemblerState}
    (hg : assembleGuard data prompt (dataKeys dp data) = true)
    (he : st.previousHash = dataPromptHash data prompt) :
    assembleStep dp palette data prompt st = (st, 0) := by
  simp [assembleStep, hg, he]

/-- A changed fingerprint (with the guard satisfied) recomputes. -/
theorem assembleStep_recompute {dp : String → Bool} {palette : List String}
    {data : List JsVal} {prompt : String} {st : AssemblerState}
    (hg : assembleGuard data prompt (dataKeys dp data) = true)
    (hh : st.previousHash ≠ dataPromptHash data prompt) :
    assembleStep dp palette data prompt st = assembleCore dp palette data prompt st := by
  simp [assembleStep, hg, hh]

/-- A failed guard clears the configuration and resets the fingerprint. -/
theorem assembleStep_clear {dp : String → Bool} {palette : List String}
    {data : List JsVal} {prompt : String} {st : AssemblerState}
    (h : assembleGuard data prompt (dataKeys dp data) = false) :
    assembleStep dp palette data prompt st =
      ({ previousHash := "", chartConfig := none, error := st.error }, 0) := by
  simp [assembleStep, h]

/-! ## The claims -/

/-- The end-to-end example data
`[{"name":"Jan","value":400},{"name":"Feb","value":300}]`. -/
def pieExampleData : List JsVal :=
  [jsObj [("name", .str "Jan"), ("value", .num (.fin 400))],
   jsObj [("name", .str "Feb"), ("value", .num (.fin 300))]]

/-- C1: for the data `[{"name":"Jan","value":400},{"name":"Feb","value":300}]`
and the prompt "Create a pie chart", the assembled configuration has
chartType "pie", dataMapping.nameKey "name", dataMapping.valueKey
"value", and the produced pie option has a single series containing
exactly the two entries (name "Jan", value 400) and (name "Feb",
value 300) — for every `Date.parse` oracle and every cached palette. -/
theorem endToEnd_pie (dp : String → Bool) (palette : List String) :
    ((assembleStep dp palette pieExampleData "Create a pie chart" {}).1.chartConfig.map
        (fun c => c.chartType)) = some "pie" ∧
    ((assembleStep dp palette pieExampleData "Create a pie chart" {}).1.chartConfig.map
        (fun c => c.mappingNameKey)) = some "name" ∧
    ((assembleStep dp palette pieExampleData "Create a pie chart" {}).1.chartConfig.map
        (fun c => c.mappingValueKey)) = some "value" ∧
    ((assembleStep dp palette pieExampleData "Create a pie chart" {}).1.chartConfig.map
        (fun c => c.echartsOption.series.map (fun s => s.sdata))) =
      some [[.named "Jan" (.fin 400), .named "Feb" (.fin 300)]] :=
  ⟨rfl, rfl, rfl, rfl⟩

/-- C2: with byte-identical data and prompt, an accepted first run
(satisfied guard, changed fingerprint) invokes the option builder
exactly once, and the second run returns before invoking it — the state,
including the stored configuration, is unchanged. -/
theorem assemble_memoizes (dp : String → Bool) (palette : List String)
    (data : List JsVal) (prompt : String) (st : AssemblerState)
    (hg : assembleGuard data prompt (dataKeys dp data) = true)
    (hh : st.previousHash ≠ dataPromptHash data prompt) :
    (assembleStep dp palette data prompt st).2 = 1 ∧
    assembleStep dp palette data prompt (assembleStep dp palette data prompt st).1 =
      ((assembleStep dp palette data prompt st).1, 0) := by
  have h1 := @assembleStep_recompute dp palette data prompt st hg hh
  refine ⟨by rw [h1]; exact assembleCore_count dp palette data prompt st, ?_⟩
  exact assembleStep_skip hg
    (by rw [h1]; exact assembleCore_prevHash dp palette data prompt st)

/-- Witness for C2 at the pie example. -/
theorem assemble_memoizes_witness :
    ((assembleGuard pieExampleData "Create a pie chart"
        (dataKeys (fun _ => false) pieExampleData) = true) ∧
      (AssemblerState.previousHash {} ≠ dataPromptHash pieExampleData "Create a pie chart")) ∧
    (assembleStep (fun _ => false) [] pieExampleData "Create a pie chart" {}).2 = 1 ∧
    assembleStep (fun _ => false) [] pieExampleData "Create a pie chart"
        (assembleStep (fun _ => false) [] pieExampleData "Create a pie chart" {}).1 =
      ((assembleStep (fun _ => false) [] pieExampleData "Create a pie chart" {}).1, 0) :=
  ⟨⟨by decide, by decide⟩,
    assemble_memoizes (fun _ => false) [] pieExampleData "Create a pie chart" {}
      (by decide) (by decide)⟩

/-- C3: the assembler yields a null configuration whenever the data is
empty, the prompt is empty or whitespace-only, or classification yields
an empty name or value key; classifying an empty data set returns empty
key sets and empty label and value keys; assembling `[]` with
"bar chart" yields null. (All the embedded functions are total, so none
of these cases can throw.) -/
theorem assemble_null_cases :
    (∀ dp : String → Bool, dataKeys dp [] = ⟨[], [], [], [], "", "", []⟩) ∧
    (∀ (dp : String → Bool) (palette : List String) (st : AssemblerState),
      (assembleStep dp palette [] "bar chart" st).1.chartConfig = none) ∧
    (∀ (dp : String → Bool) (palette : List String) (data : List JsVal)
        (prompt : String) (st : AssemblerState),
      data = [] ∨ trimS prompt = "" ∨ (dataKeys dp data).nameKey = "" ∨
        (dataKeys dp data).valueKey = "" →
      assembleStep dp palette data prompt st =
        ({ previousHash := "", chartConfig := none, error := st.error }, 0)) := by
  refine ⟨fun dp => rfl, ?_, ?_⟩
  · intro dp palette st
    have h : assembleGuard ([] : List JsVal) "bar chart" (dataKeys dp []) = false := rfl
    rw [assembleStep_clear h]
  · intro dp palette data prompt st h
    apply assembleStep_clear
    rcases h with h | h | h | h <;> simp [assembleGuard, h]

/-- Witness for C3 at empty data with prompt "bar chart". -/
theorem assemble_null_cases_witness :
    (([] : List JsVal) = [] ∨ trimS "bar chart" = "" ∨
      (dataKeys (fun _ => false) []).nameKey = "" ∨
      (dataKeys (fun _ => false) []).valueKey = "") ∧
    assembleStep (fun _ => false) [] [] "bar chart" {} =
      ({ previousHash := "", chartConfig := none, error := none }, 0) :=
  ⟨Or.inl rfl,
    assemble_null_cases.2.2 (fun _ => false) [] [] "bar chart" {} (Or.inl rfl)⟩

/-- C10: whenever any trendline keyword is detected (single forms
included, not only dual/multiple) and the keyword-detected chart type is
neither "line" nor "scatter", the assembled configuration's chartType is
overridden to "line". -/
theorem trendline_forces_line (dp : String → Bool) (palette : List String)
    (data : List JsVal) (prompt : String) (st : AssemblerState)
    (hg : assembleGuard data prompt (dataKeys dp data) = true)
    (hh : st.previousHash ≠ dataPromptHash data prompt)
    (ht : hasTrendlineOf (trimS (lowerS prompt)) = true)
    (hd : detectEChartsType prompt ≠ "line")
    (hd2 : detectEChartsType prompt ≠ "scatter") :
    ((assembleStep dp palette data prompt st).1.chartConfig.map
      (fun c => c.chartType)) = some "line" := by
  rw [assembleStep_recompute hg hh]
  simp only [assembleCore, registryHasType_ite, if_true]
  simp [ht, hd, hd2]

/-- Witness for C10: a prompt asking for a bar chart with a single
trendline produces chartType "line", not "bar". -/
theorem trendline_forces_line_witness :
    (assembleGuard pieExampleData "bar chart with trendline"
        (dataKeys (fun _ => false) pieExampleData) = true ∧
      AssemblerState.previousHash {} ≠ dataPromptHash pieExampleData "bar chart with trendline" ∧
      hasTrendlineOf (trimS (lowerS "bar chart with trendline")) = true ∧
      detectEChartsType "bar chart with trendline" ≠ "line" ∧
      detectEChartsType "bar chart with trendline" ≠ "scatter") ∧
    ((assembleStep (fun _ => false) [] pieExampleData "bar chart with trendline" {}).1.chartConfig.map
      (fun c => c.chartType)) = some "line" :=
  ⟨⟨by decide, by decide, by decide, by decide, by decide⟩,
    trendline_forces_line (fun _ => false) [] pieExampleData "bar chart with trendline" {}
      (by decide) (by decide) (by decide) (by decide) (by decide)⟩

/-- A search over entries none of whose keywords match returns nothing. -/
theorem detectFromConfigs_none : ∀ (L : List (String × List String)) (pl : String),
    (∀ e ∈ L, ∀ kw ∈ e.2, kwMatches kw pl = false) →
    detectFromConfigs L pl = none := by
  intro L
  induction L with
  | nil => intro pl _; rfl
  | cons e rest ih =>
    intro pl h
    obtain ⟨tk, kws⟩ := e
    simp only [detectFromConfigs]
    have hb : kws.any (fun kw => kwMatches kw pl) = false := by
      rw [List.any_eq_false]
      intro kw hkw
      simp [h (tk, kws) (List.mem_cons_self _ _) kw hkw]
    simp only [hb, Bool.false_eq_true, if_false]
    exact ih pl (fun e' he' => h e' (List.mem_cons_of_mem _ he'))

/-- The searched entry order is non-increasing in longest-keyword length. -/
theorem cs_sorted : List.Sorted (fun a b => maxKwLen b.2 ≤ maxKwLen a.2) sortedConfigs := by
  haveI : IsTotal (String × List String) (fun a b => maxKwLen b.2 ≤ maxKwLen a.2) :=
    ⟨fun a b => le_total _ _⟩
  haveI : IsTrans (String × List String) (fun a b => maxKwLen b.2 ≤ maxKwLen a.2) :=
    ⟨fun _ _ _ h1 h2 => le_trans h2 h1⟩
  exact List.sorted_insertionSort _ _

/-- C4 (amended): chart-type detection searches exactly the registry's
entries, ordered by decreasing longest-keyword length (stable on ties),
each entry's keywords in list order with whole-word whitespace-tolerant
matching, first match wins; "show me a stacked bar chart" detects
"stackedbar"; and when no keyword matches, the result is "bar" —
provided the dual/multiple-trendline pre-check does not fire (that
pre-check returns "line" before the keyword search, which is the one
correction to the claim). -/
theorem chart_type_detection :
    List.Sorted (fun a b => maxKwLen b.2 ≤ maxKwLen a.2) sortedConfigs ∧
    sortedConfigs.Perm registryKeywords ∧
    detectEChartsType "show me a stacked bar chart" = "stackedbar" ∧
    (∀ p : String,
      multiTrendCond (trimS (lowerS p)) = false →
      (∀ e ∈ registryKeywords, ∀ kw ∈ e.2, kwMatches kw (trimS (lowerS p)) = false) →
      detectEChartsType p = "bar") := by
  refine ⟨cs_sorted, sortedConfigs_perm, by decide, ?_⟩
  intro p hpre hkw
  have hnone : detectFromConfigs sortedConfigs (trimS (lowerS p)) = none :=
    detectFromConfigs_none _ _ (fun e he => hkw e (sortedConfigs_perm.mem_iff.mp he))
  simp [detectEChartsType, hpre, hnone]

/-- Witness for C4 at a prompt with no keyword and no pre-check hit. -/
theorem chart_type_detection_witness :
    (multiTrendCond (trimS (lowerS "hello world")) = false ∧
      (∀ e ∈ registryKeywords, ∀ kw ∈ e.2,
        kwMatches kw (trimS (lowerS "hello world")) = false)) ∧
    detectEChartsType "hello world" = "bar" :=
  ⟨⟨by decide, by decide⟩, chart_type_detection.2.2.2 "hello world" (by decide) (by decide)⟩

/-- Counterexample to C4 as stated: for the prompt "dual trendline" no
registry keyword matches, yet detection returns "line", not the claimed
default "bar" (the dual/multiple-trendline pre-check fires first). -/
theorem chart_type_detection_cex :
    detectEChartsType "dual trendline" = "line" ∧
    (∀ e ∈ registryKeywords, ∀ kw ∈ e.2,
      kwMatches kw (trimS (lowerS "dual trendline")) = false) ∧
    ("line" : String) ≠ "bar" :=
  ⟨by decide, by decide, by decide⟩

/-- The classifier's numeric test accepts exactly the non-NaN numbers. -/
theorem isNumericVal_iff (v : JsVal) :
    isNumericVal v = true ↔ ∃ x : JsNum, v = .num x ∧ x ≠ .nan := by
  cases v <;> simp [isNumericVal]
  case num x => cases x <;> simp [JsNum.isNan]

/-- C7 (amended): a key of the flattened first record is classified
numeric iff its value is a number other than NaN — the non-finite values
Infinity and -Infinity are classified numeric, NaN is not (the code
tests `typeof === "number" && !isNaN`, not finiteness). -/
theorem numeric_key_iff (dp : String → Bool) (d0 : JsVal) (rest : List JsVal) (k : String) :
    k ∈ (dataKeys dp (d0 :: rest)).numericKeys ↔
      k ∈ (flattenObject d0 "" []).map Prod.fst ∧
      (∃ x : JsNum, getVal (flattenObject d0 "" []) k = .num x ∧ x ≠ .nan) := by
  simp only [dataKeys]
  rw [List.mem_filter]
  exact and_congr_right (fun _ => by rw [← isNumericVal_iff])

/-- The data set whose only record holds an `Infinity` value. -/
def infinityData : List JsVal := [jsObj [("a", .num .posInf)]]

/-- The claim's "finite number" predicate. -/
def isFiniteNumVal : JsVal → Bool
  | .num (.fin _) => true
  | _ => false

/-- Counterexample to C7 as stated: the key "a" with value `Infinity`
is classified numeric although its value is not a finite number. -/
theorem numeric_key_cex :
    (dataKeys (fun _ => false) infinityData).numericKeys = ["a"] ∧
    getVal (flattenObject (jsObj [("a", .num .posInf)]) "" []) "a" = .num .posInf ∧
    isFiniteNumVal (.num .posInf) = false :=
  ⟨rfl, rfl, rfl⟩

/-- C9: color extraction finds named colors by whole-word matching, hex
literals (3-digit forms normalized to 6 digits) and rgb()/rgba()
literals, deduplicates preserving discovery order — so
`extractColors("make it red and #00ff00")` is `["#ff0000", "#00ff00"]`
in that order — and yields no explicit colors when nothing matches. -/
theorem extract_colors_spec :
    extractColors "make it red and #00ff00" = some ["#ff0000", "#00ff00"] ∧
    extractColors "use #abc" = some ["#aabbcc"] ∧
    extractColors "red and red" = some ["#ff0000"] ∧
    (∀ p : String,
      (∀ pr ∈ colorMap, kwMatches pr.1 p = false) →
      scanHexColors p.toList = [] →
      scanRgbColors p.toList = [] →
      extractColors p = none) := by
  refine ⟨by decide, by decide, by decide, ?_⟩
  intro p h1 h2 h3
  have hf : colorMap.filter (fun pr => kwMatches pr.1 p) = [] := by
    rw [List.filter_eq_nil_iff]
    intro pr hpr
    simp [h1 pr hpr]
  simp only [String.toList] at h2 h3
  simp [extractColors, hf, h2, h3, dedupFirst, dedupFirst.go]

/-- Witness for C9 at a prompt with no color at all. -/
theorem extract_colors_spec_witness :
    ((∀ pr ∈ colorMap, kwMatches pr.1 "hello" = false) ∧
      scanHexColors "hello".toList = [] ∧
      scanRgbColors "hello".toList = []) ∧
    extractColors "hello" = none :=
  ⟨⟨by decide, by decide, by decide⟩,
    extract_colors_spec.2.2.2 "hello" (by decide) (by decide) (by decide)⟩

/-- `Math.floor(n * 0.25)` as the exact natural `n / 4`. -/
theorem floor_quarter (n : ℕ) : Nat.floor ((n : ℚ) * 0.25) = n / 4 := by
  have h : (n : ℚ) * 0.25 = (n : ℚ) / 4 := by
    rw [show (0.25 : ℚ) = 1 / 4 from by norm_num]
    ring
  rw [h, Nat.floor_div_ofNat, Nat.floor_natCast]

/-- `Math.floor(n * 0.5)` as the exact natural `n / 2`. -/
theorem floor_half (n : ℕ) : Nat.floor ((n : ℚ) * 0.5) = n / 2 := by
  have h : (n : ℚ) * 0.5 = (n : ℚ) / 2 := by
    rw [show (0.5 : ℚ) = 1 / 2 from by norm_num]
    ring
  rw [h, Nat.floor_div_ofNat, Nat.floor_natCast]

/-- `Math.floor(n * 0.75)` as the exact natural `3 * n / 4`. -/
theorem floor_three_quarters (n : ℕ) : Nat.floor ((n : ℚ) * 0.75) = 3 * n / 4 := by
  have h : (n : ℚ) * 0.75 = ((3 * n : ℕ) : ℚ) / 4 := by
    rw [show (0.75 : ℚ) = 3 / 4 from by norm_num]
    push_cast
    ring
  rw [h, Nat.floor_div_ofNat, Nat.floor_natCast]

/-- The comparator order is total. -/
theorem leB_total (a b : JsNum) : JsNum.leB a b = true ∨ JsNum.leB b a = true := by
  cases a <;> cases b <;> simp [JsNum.leB]
  exact le_total _ _

/-- The comparator order is transitive. -/
theorem leB_trans (a b c : JsNum) (h1 : JsNum.leB a b = true) (h2 : JsNum.leB b c = true) :
    JsNum.leB a c = true := by
  cases a <;> cases b <;> cases c <;> simp_all [JsNum.leB]
  exact le_trans h1 h2

/-- The embedded `sort((a, b) => a - b)` sorts. -/
theorem sortNums_sorted (l : List JsNum) :
    List.Sorted (fun a b => JsNum.leB a b = true) (sortNums l) := by
  haveI : IsTotal JsNum (fun a b => JsNum.leB a b = true) := ⟨leB_total⟩
  haveI : IsTrans JsNum (fun a b => JsNum.leB a b = true) := ⟨leB_trans⟩
  exact List.sorted_insertionSort _ _

/-- The embedded sort permutes its input. -/
theorem sortNums_perm (l : List JsNum) : (sortNums l).Perm l :=
  List.perm_insertionSort _ _

/-- The ten-record example with values 1..10. -/
def boxplotExampleCfg : EConfigE :=
  { nameKey := "name", valueKey := "v", colors := [],
    data := [[("v", .num (.fin 1))], [("v", .num (.fin 2))], [("v", .num (.fin 3))],
             [("v", .num (.fin 4))], [("v", .num (.fin 5))], [("v", .num (.fin 6))],
             [("v", .num (.fin 7))], [("v", .num (.fin 8))], [("v", .num (.fin 9))],
             [("v", .num (.fin 10))]] }

/-- The five-number-summary series exactly as the claim states it: the
nearest-rank positions `floor(n*0.25)`, `floor(n*0.5)`, `floor(n*0.75)`
(as real floors of the exact products) on the sorted value list. Stated
from the claim's formula, for comparison with `boxplotOption`. -/
def claimBoxplotSeries (cfg : EConfigE) : List SeriesE :=
  let values := sortNums (cfg.data.map (fun item => numOr0 (getVal item cfg.valueKey)))
  [{ name := some cfg.valueKey
     stype := "boxplot"
     sdata := [.optNumArr
       [values.get? 0,
        values.get? (Nat.floor ((values.length : ℚ) * 0.25)),
        values.get? (Nat.floor ((values.length : ℚ) * 0.5)),
        values.get? (Nat.floor ((values.length : ℚ) * 0.75)),
        values.get? (values.length - 1)]] }]

/-- C5: the boxplot option-builder emits one series whose single datum is
the nearest-rank five-number summary `[min, Q1, median, Q3, max]` of the
sorted (and permutation-equal) coerced value list, with Q1/median/Q3 at
`floor(n*0.25)`, `floor(n*0.5)` and `floor(n*0.75)`; for the values
1..10 this yields min=1, Q1=3, median=6, Q3=8, max=10. -/
theorem boxplot_five_number :
    (∀ cfg : EConfigE, (boxplotOption cfg).series = claimBoxplotSeries cfg) ∧
    (∀ cfg : EConfigE,
      List.Sorted (fun a b : JsNum => JsNum.leB a b = true)
        (sortNums (cfg.data.map (fun item => numOr0 (getVal item cfg.valueKey)))) ∧
      (sortNums (cfg.data.map (fun item => numOr0 (getVal item cfg.valueKey)))).Perm
        (cfg.data.map (fun item => numOr0 (getVal item cfg.valueKey)))) ∧
    ((boxplotOption boxplotExampleCfg).series.map (fun s => s.sdata) =
      [[.optNumArr [some (.fin 1), some (.fin 3), some (.fin 6), some (.fin 8),
                    some (.fin 10)]]]) := by
  refine ⟨?_, fun cfg => ⟨sortNums_sorted _, sortNums_perm _⟩, by rfl⟩
  intro cfg
  simp only [claimBoxplotSeries, floor_quarter, floor_half, floor_three_quarters]
  rfl

/-- `typeof v === "number"`. -/
def isJsNumberVal : JsVal → Bool
  | .num _ => true
  | _ => false

/-- The counterexample configuration: two resolved fields. -/
def candleCexCfg : EConfigE :=
  { nameKey := "t", valueKey := "a", dataKeys := some ["a", "b"], colors := [],
    data := [[("t", .str "d1"), ("a", .num (.fin 5)), ("b", .num (.fin 3))]] }

/-- The per-record candlestick datum as claim C6 describes it: the
resolved fields positionally as open/close/low/high, with a missing low
(resp. high) synthesized as the min (resp. max) of open and close.
Stated from the claim's words, for comparison with `candlestickDatum`. -/
def claimCandlestickDatum (keys : List String) (item : List (String × JsVal)) : OptDatum :=
  let o := numOr0 (getValOpt item (keys.get? 0))
  let c := numOr0 (getValOpt item (keys.get? 1))
  let l := match keys.get? 2 with
    | some k => numOr0 (getVal item k)
    | none => JsNum.jsMin o c
  let h := match keys.get? 3 with
    | some k => numOr0 (getVal item k)
    | none => JsNum.jsMax o c
  .numArr [o, c, l, h]

/-- Counterexample to C6 as stated: with the two resolved fields
`["a", "b"]` and the record `{a: 5, b: 3}`, the builder emits
`[5, 5, 5, 5]` (all four positions read the first field), not the
claimed positional `[open=5, close=3, low=3, high=5]`. -/
theorem candlestick_positional_cex :
    ((candlestickOption candleCexCfg).series.map (fun s => s.sdata) =
      [[.numArr [.fin 5, .fin 5, .fin 5, .fin 5]]]) ∧
    claimCandlestickDatum ["a", "b"]
        [("t", .str "d1"), ("a", .num (.fin 5)), ("b", .num (.fin 3))] =
      .numArr [.fin 5, .fin 3, .fin 3, .fin 5] ∧
    (OptDatum.numArr [.fin 5, .fin 5, .fin 5, .fin 5]) ≠
      (.numArr [.fin 5, .fin 3, .fin 3, .fin 5]) :=
  ⟨rfl, rfl, by decide⟩

/-- C6 (amended): with at least four resolved fields the candlestick
builder reads the first four positionally as open/close/low/high; for
any record, a non-numeric value at the low (high) slot is synthesized as
the min (max) of that record's open and close; but with fewer than four
resolved fields all four positions read the first resolved field, so a
record whose first-field value is the number x yields `[x, x, x, x]` —
open and close are not taken from distinct fields, which is the
correction to the claim. -/
theorem candlestick_ohlc :
    (∀ cfg : EConfigE, (keysOf cfg).length ≥ 4 →
      (candlestickOption cfg).series.map (fun s => s.sdata) =
        [cfg.data.map (candlestickDatum (((keysOf cfg).take 4).map some))]) ∧
    (∀ (ohlc : List (Option String)) (item : List (String × JsVal)),
      isJsNumberVal (getValOpt item (ohlc.getD 2 none)) = false →
      isJsNumberVal (getValOpt item (ohlc.getD 3 none)) = false →
      candlestickDatum ohlc item =
        .numArr [numOr0 (getValOpt item (ohlc.getD 0 none)),
                 numOr0 (getValOpt item (ohlc.getD 1 none)),
                 JsNum.jsMin (numOr0 (getValOpt item (ohlc.getD 0 none)))
                             (numOr0 (getValOpt item (ohlc.getD 1 none))),
                 JsNum.jsMax (numOr0 (getValOpt item (ohlc.getD 0 none)))
                             (numOr0 (getValOpt item (ohlc.getD 1 none)))]) ∧
    (∀ (cfg : EConfigE) (item : List (String × JsVal)) (k0 : String) (x : JsNum),
      (keysOf cfg).length < 4 → (keysOf cfg).head? = some k0 → k0 ≠ "" →
      getVal item k0 = .num x →
      candlestickDatum (ohlcKeysOf cfg) item = .numArr [x, x, x, x]) := by
  refine ⟨?_, ?_, ?_⟩
  · intro cfg h
    have ho : ohlcKeysOf cfg = ((keysOf cfg).take 4).map some := by
      simp [ohlcKeysOf, h]
    simp [candlestickOption, ho]
  · intro ohlc item h2 h3
    simp only [candlestickDatum]
    cases hv2 : getValOpt item (ohlc.getD 2 none) <;>
      cases hv3 : getValOpt item (ohlc.getD 3 none) <;>
        simp_all [isJsNumberVal]
  · intro cfg item k0 x hlen hhead hne hval
    have ho : ohlcKeysOf cfg = [some k0, some k0, some k0, some k0] := by
      simp only [ohlcKeysOf]
      rw [if_neg (by omega)]
      simp [hhead, hne]
    simp [candlestickDatum, ho, getValOpt, hval, numOr0]

/-- Witness for C6 (amended) at the counterexample record. -/
theorem candlestick_ohlc_witness :
    ((keysOf candleCexCfg).length < 4 ∧
      (keysOf candleCexCfg).head? = some "a" ∧
      ("a" : String) ≠ "" ∧
      getVal [("t", JsVal.str "d1"), ("a", JsVal.num (.fin 5)), ("b", JsVal.num (.fin 3))] "a" =
        .num (.fin 5)) ∧
    candlestickDatum (ohlcKeysOf candleCexCfg)
        [("t", JsVal.str "d1"), ("a", JsVal.num (.fin 5)), ("b", JsVal.num (.fin 3))] =
      .numArr [.fin 5, .fin 5, .fin 5, .fin 5] :=
  ⟨⟨by decide, rfl, by decide, rfl⟩,
    candlestick_ohlc.2.2 candleCexCfg
      [("t", JsVal.str "d1"), ("a", JsVal.num (.fin 5)), ("b", JsVal.num (.fin 3))]
      "a" (.fin 5) (by decide) rfl (by decide) rfl⟩

/-- Assigning a fresh key appends. -/
theorem setKey_append {m : List (String × JsVal)} {k : String} {v : JsVal}
    (h : k ∉ m.map Prod.fst) : setKey m k v = m ++ [(k, v)] := by
  have hc : m.any (fun p => p.1 = k) = false := by
    rw [List.any_eq_false]
    intro p hp
    simp only [decide_eq_true_eq]
    intro hk
    exact h (hk ▸ List.mem_map_of_mem Prod.fst hp)
  simp [setKey, hc]

/-- A primitive-leaf property value is stored under its key. -/
theorem flattenEntry_prim {v : JsVal} (h : v.isPrimLeaf = true)
    (nk : String) (result : List (String × JsVal)) :
    flattenEntry v nk result = setKey result nk v := by
  cases v <;> first
    | rfl
    | (exfalso; simp [JsVal.isPrimLeaf] at h)

/-- Flattening an all-primitive field list appends exactly the
prefix-joined entries, provided the joined keys are fresh and distinct. -/
theorem flattenFields_prim : ∀ (sub : List (String × JsVal)) (pre : String)
    (result : List (String × JsVal)),
    (∀ q ∈ sub, (q.2).isPrimLeaf = true) →
    (∀ q ∈ sub, joinKey pre q.1 ∉ result.map Prod.fst) →
    (sub.map (fun q => joinKey pre q.1)).Nodup →
    flattenFields (JsFields.ofList sub) pre result =
      result ++ sub.map (fun q => (joinKey pre q.1, q.2)) := by
  intro sub
  induction sub with
  | nil =>
    intro pre result _ _ _
    simp only [List.map_nil, List.append_nil]
    rfl
  | cons q rest ih =>
    intro pre result hprim hfresh hnodup
    obtain ⟨k2, v⟩ := q
    simp only [JsFields.ofList, flattenFields]
    rw [flattenEntry_prim (hprim (k2, v) (List.mem_cons_self _ _)),
      setKey_append (hfresh (k2, v) (List.mem_cons_self _ _))]
    rw [ih pre (result ++ [(joinKey pre k2, v)])
      (fun q' hq' => hprim q' (List.mem_cons_of_mem _ hq'))
      ?_ (List.nodup_cons.mp hnodup).2]
    · simp
    · intro q' hq'
      simp only [List.map_append, List.mem_append]
      rintro (hmem | hmem)
      · exact hfresh q' (List.mem_cons_of_mem _ hq') hmem
      · simp only [List.map_cons, List.map_nil, List.mem_singleton] at hmem
        exact (List.nodup_cons.mp hnodup).1
          (by simpa [hmem] using
            List.mem_map_of_mem (fun q : String × JsVal => joinKey pre q.1) hq')

/-- Flattening a record whose values are flat primitive objects appends
exactly the dot-joined entries. -/
theorem flattenFields_nestedObjs : ∀ (fields : List (String × List (String × JsVal)))
    (result : List (String × JsVal)),
    (∀ p ∈ fields, ∀ q ∈ p.2, (q.2).isPrimLeaf = true) →
    (∀ p ∈ fields, ∀ q ∈ p.2, joinKey p.1 q.1 ∉ result.map Prod.fst) →
    (fields.flatMap (fun p => p.2.map (fun q => joinKey p.1 q.1))).Nodup →
    flattenFields (JsFields.ofList (fields.map (fun p => (p.1, jsObj p.2)))) "" result =
      result ++ fields.flatMap (fun p => p.2.map (fun q => (joinKey p.1 q.1, q.2))) := by
  intro fields
  induction fields with
  | nil =>
    intro result _ _ _
    simp only [List.map_nil, List.flatMap_nil, List.append_nil]
    rfl
  | cons p rest ih =>
    intro result hprim hfresh hnodup
    obtain ⟨k, sub⟩ := p
    rw [List.flatMap_cons, List.nodup_append] at hnodup
    obtain ⟨hn1, hn2, hdisj⟩ := hnodup
    simp only [List.map_cons, JsFields.ofList, flattenFields]
    have h1 : flattenEntry (jsObj sub) (joinKey "" k) result =
        result ++ sub.map (fun q => (joinKey k q.1, q.2)) :=
      flattenFields_prim sub k result
        (fun q hq => hprim (k, sub) (List.mem_cons_self _ _) q hq)
        (fun q hq => hfresh (k, sub) (List.mem_cons_self _ _) q hq)
        hn1
    rw [h1]
    rw [ih (result ++ sub.map (fun q => (joinKey k q.1, q.2)))
      (fun p' hp' => hprim p' (List.mem_cons_of_mem _ hp'))
      ?_ hn2]
    · rw [List.flatMap_cons, ← List.append_assoc]
    · intro p' hp' q' hq'
      simp only [List.map_append, List.mem_append, List.map_map]
      rintro (hmem | hmem)
      · exact hfresh p' (List.mem_cons_of_mem _ hp') q' hq' hmem
      · refine hdisj ?_ (List.mem_flatMap.mpr ⟨p', hp', List.mem_map_of_mem _ hq'⟩)
        simpa using hmem

/-- C8: for every record all of whose values are flat objects of
primitives (with the resulting dot-joined keys pairwise distinct),
`flattenObject` produces exactly the dot-joined keys mapped to the
corresponding primitive leaves and nothing else. -/
theorem flatten_nested_objects (fields : List (String × List (String × JsVal)))
    (hprim : ∀ p ∈ fields, ∀ q ∈ p.2, (q.2).isPrimLeaf = true)
    (hnodup : (fields.flatMap (fun p => p.2.map (fun q => joinKey p.1 q.1))).Nodup) :
    flattenObject (jsObj (fields.map (fun p => (p.1, jsObj p.2)))) "" [] =
      fields.flatMap (fun p => p.2.map (fun q => (joinKey p.1 q.1, q.2))) := by
  have h := flattenFields_nestedObjs fields [] hprim (by simp) hnodup
  simpa using h

/-- Witness for C8: `flatten({a:{b:1,c:2}})` equals `{"a.b":1, "a.c":2}`. -/
theorem flatten_nested_objects_witness :
    ((∀ p ∈ [("a", [("b", JsVal.num (.fin 1)), ("c", JsVal.num (.fin 2))])],
        ∀ q ∈ p.2, (q.2).isPrimLeaf = true) ∧
      ([("a", [("b", JsVal.num (.fin 1)), ("c", JsVal.num (.fin 2))])].flatMap
        (fun p => p.2.map (fun q => joinKey p.1 q.1))).Nodup) ∧
    flattenObject (jsObj [("a", jsObj [("b", .num (.fin 1)), ("c", .num (.fin 2))])]) "" [] =
      [("a.b", .num (.fin 1)), ("a.c", .num (.fin 2))] :=
  ⟨⟨by decide, by decide⟩,
    flatten_nested_objects [("a", [("b", JsVal.num (.fin 1)), ("c", JsVal.num (.fin 2))])]
      (by decide) (by decide)⟩
